import Mathlib

/-!
Verification development for the parallel treasury balance aggregation
engine of pocket-knife (src/pocketknife/cli.py).

Python floats are modelled as exact rationals; the outcome of each external
subprocess invocation (the pocketd binary) is modelled as explicit input
data: an inductive type with one constructor per control path the Python
code distinguishes (well-formed stdout, non-zero exit code with stderr,
timeout, JSON decode error, other exception).  Python dicts keyed by
addresses are modelled as association lists in insertion order.
-/

namespace Pocketknife

/-- Outcome of one subprocess invocation whose stdout, when the process
exits 0, parses into a value of type alpha.  Mirrors the branches of the
Python try/except blocks around subprocess.run: zero exit with parsed
payload, non-zero exit with captured stderr, subprocess.TimeoutExpired,
json.JSONDecodeError, and any other exception. -/
inductive QueryOutcome (α : Type) where
  | ok (payload : α)
  | processFailure (stderr : String)
  | timeout
  | badJson
  | exn (msg : String)
deriving DecidableEq

/-- Python string `or`: the left operand unless it is empty (falsy). -/
def strOr (a b : String) : String := if a = "" then b else a

/-- Conversion from base units to display units, `upokt / 1_000_000`,
as written in get_liquid_balance, get_app_stake_balance,
get_node_stake_balance and get_validator_stake_balance. -/
def upoktToPokt (n : Int) : ℚ := (n : ℚ) / 1000000

/-- Parsed stdout of `pocketd query bank balances <addr>`: the `balances`
list, each entry a (denom, amount) pair with the amount already parsed
by `int(...)`. -/
structure BankBalancesResponse where
  balances : List (String × Int)
deriving DecidableEq

/-- The loop in get_liquid_balance: scan `balances` for the first entry
whose denom is "upokt" and take its amount (the loop breaks on the first
match); 0 if none is found. -/
def firstUpokt : List (String × Int) → Int
  | [] => 0
  | (denom, amount) :: rest => if denom = "upokt" then amount else firstUpokt rest

/-- get_liquid_balance (cli.py:1568): returns (balance, success, error_message). -/
def get_liquid_balance : QueryOutcome BankBalancesResponse → ℚ × Bool × String
  | .ok r => (upoktToPokt (firstUpokt r.balances), true, "")
  | .processFailure stderr => (0, false, strOr stderr ("Unknown error"))
  | .timeout => (0, false, "Query timeout")
  | .badJson => (0, false, "Invalid JSON response")
  | .exn msg => (0, false, msg)

/-- Parsed stdout of `pocketd query application show-application` or
`pocketd query supplier show-supplier`: either the nested stake object is
empty or missing (the Python `if not stake` branch), or it carries an
amount already parsed by `int(stake.get("amount", 0))`. -/
inductive StakeResponse where
  | noStake
  | stake (upokt : Int)
deriving DecidableEq

/-- get_app_stake_balance (cli.py:1509): composes the liquid query with the
application stake query; returns (liquid_balance, staked_balance, success,
error_message). -/
def get_app_stake_balance (liquidQ : QueryOutcome BankBalancesResponse)
    (stakeQ : QueryOutcome StakeResponse) : ℚ × ℚ × Bool × String :=
  let l := get_liquid_balance liquidQ
  let liquid_balance := l.1
  let liquid_success := l.2.1
  let liquid_error := l.2.2
  match stakeQ with
  | .processFailure _ =>
      if liquid_success then (liquid_balance, 0, true, "No app stake found")
      else (0, 0, false, strOr liquid_error ("No app stake found"))
  | .ok .noStake =>
      if liquid_success then (liquid_balance, 0, true, "No app stake found")
      else (0, 0, false, strOr liquid_error ("No app stake found"))
  | .ok (.stake upokt_staked) =>
      let pokt_staked := upoktToPokt upokt_staked
      let success := liquid_success || decide (pokt_staked > 0)
      let error_msg := if success then ("") else strOr liquid_error ("No balances found")
      (liquid_balance, pokt_staked, success, error_msg)
  | .timeout =>
      if liquid_success then (liquid_balance, 0, true, "App stake query timeout")
      else (0, 0, false, "Query timeout")
  | .badJson =>
      if liquid_success then (liquid_balance, 0, true, "Invalid app stake JSON response")
      else (0, 0, false, "Invalid JSON response")
  | .exn msg =>
      if liquid_success then (liquid_balance, 0, true, "App stake error: " ++ msg)
      else (0, 0, false, msg)

/-- get_node_stake_balance (cli.py:1450): composes the liquid query with the
supplier stake query; identical control structure to get_app_stake_balance
with node-specific message strings. -/
def get_node_stake_balance (liquidQ : QueryOutcome BankBalancesResponse)
    (stakeQ : QueryOutcome StakeResponse) : ℚ × ℚ × Bool × String :=
  let l := get_liquid_balance liquidQ
  let liquid_balance := l.1
  let liquid_success := l.2.1
  let liquid_error := l.2.2
  match stakeQ with
  | .processFailure _ =>
      if liquid_success then (liquid_balance, 0, true, "No node stake found")
      else (0, 0, false, strOr liquid_error ("No node stake found"))
  | .ok .noStake =>
      if liquid_success then (liquid_balance, 0, true, "No node stake found")
      else (0, 0, false, strOr liquid_error ("No node stake found"))
  | .ok (.stake upokt_staked) =>
      let pokt_staked := upoktToPokt upokt_staked
      let success := liquid_success || decide (pokt_staked > 0)
      let error_msg := if success then ("") else strOr liquid_error ("No balances found")
      (liquid_balance, pokt_staked, success, error_msg)
  | .timeout =>
      if liquid_success then (liquid_balance, 0, true, "Node stake query timeout")
      else (0, 0, false, "Query timeout")
  | .badJson =>
      if liquid_success then (liquid_balance, 0, true, "Invalid node stake JSON response")
      else (0, 0, false, "Invalid JSON response")
  | .exn msg =>
      if liquid_success then (liquid_balance, 0, true, "Node stake error: " ++ msg)
      else (0, 0, false, msg)

/-- Outcome of the `pocketd debug addr` invocation: on zero exit the stdout
either contains a line starting with `Bech32 Acc:` (whose value is the
account address) or it does not; the other constructors mirror the except
branches (this call has no JSON parsing). -/
inductive ConvOutcome where
  | ok (accLine : Option String)
  | processFailure (stderr : String)
  | timeout
  | exn (msg : String)
deriving DecidableEq

/-- get_validator_account_address (cli.py:1606): converts a validator
operator address to its Bech32 account address; returns
(account_address, success, error_message). -/
def get_validator_account_address : ConvOutcome → String × Bool × String
  | .ok (some account_address) => (account_address, true, "")
  | .ok none => ("", false, "Could not find Bech32 Acc address in output")
  | .processFailure stderr => ("", false, strOr stderr ("Failed to convert address"))
  | .timeout => ("", false, "Address conversion timeout")
  | .exn msg => ("", false, "Address conversion error: " ++ msg)

/-- One element of a rewards list as the Python loops classify it: a string
ending in "upokt" whose numeric prefix parses with float(...) to this
value, a string ending in "upokt" whose numeric prefix raises ValueError
(skipped by the continue), or anything else (skipped). -/
inductive RewardToken where
  | upokt (amount : ℚ)
  | upoktBad
  | other
deriving DecidableEq

/-- Summation loop over reward strings: add the parsed amount of every
token that ends in "upokt" and parses, skip the rest. -/
def sumUpokt (tokens : List RewardToken) : ℚ :=
  tokens.foldl (fun acc t => match t with | .upokt a => acc + a | _ => acc) 0

/-- Parsed stdout of `pocketd query distribution rewards`: the outer
`rewards` list, each entry carrying its inner `reward` list of tokens. -/
structure RewardsResponse where
  rewards : List (List RewardToken)
deriving DecidableEq

/-- Summation over the delegator rewards structure: both nested loops. -/
def sumDelegatorUpokt (rewards : List (List RewardToken)) : ℚ :=
  rewards.foldl (fun acc entry => acc + sumUpokt entry) 0

/-- get_delegator_rewards (cli.py:1635): returns
(rewards_balance, success, error_message).  A non-zero exit code and an
empty rewards list are both treated as a successful query with 0 rewards
(the source comments both branches with
"No rewards is still a successful query"). -/
def get_delegator_rewards : QueryOutcome RewardsResponse → ℚ × Bool × String
  | .processFailure _ => (0, true, "")
  | .ok r =>
      if r.rewards = [] then (0, true, "")
      else (sumDelegatorUpokt r.rewards / 1000000, true, "")
  | .timeout => (0, false, "Delegator rewards query timeout")
  | .badJson => (0, false, "Invalid delegator rewards JSON response")
  | .exn msg => (0, false, "Delegator rewards error: " ++ msg)

/-- get_delegator_stake_balance (cli.py:1683): combines the liquid query
and the delegator rewards query; returns
(liquid_balance, delegator_rewards, success, error_message). -/
def get_delegator_stake_balance (liquidQ : QueryOutcome BankBalancesResponse)
    (rewardsQ : QueryOutcome RewardsResponse) : ℚ × ℚ × Bool × String :=
  let l := get_liquid_balance liquidQ
  let d := get_delegator_rewards rewardsQ
  let success := l.2.1 || d.2.1
  let error_msg :=
    if success then ("")
    else ("Liquid: " ++ strOr l.2.2 ("Unknown error") ++ "; Delegator: " ++
      strOr d.2.2 ("Unknown error"))
  (l.1, d.1, success, error_msg)

/-- Parsed stdout of `pocketd query distribution
validator-outstanding-rewards`: either the outer `rewards` object is empty
or missing (the `if not rewards` branch), or it carries the inner rewards
list of tokens (possibly empty). -/
inductive ValRewardsResponse where
  | emptyOuter
  | withList (tokens : List RewardToken)
deriving DecidableEq

/-- get_validator_outstanding_rewards (cli.py:1703): returns
(rewards_balance, success, error_message); a non-zero exit code and an
empty rewards object or list are successful queries with 0 rewards. -/
def get_validator_outstanding_rewards : QueryOutcome ValRewardsResponse → ℚ × Bool × String
  | .processFailure _ => (0, true, "")
  | .ok .emptyOuter => (0, true, "")
  | .ok (.withList tokens) =>
      if tokens = [] then (0, true, "")
      else (sumUpokt tokens / 1000000, true, "")
  | .timeout => (0, false, "Validator outstanding rewards query timeout")
  | .badJson => (0, false, "Invalid validator outstanding rewards JSON response")
  | .exn msg => (0, false, "Validator outstanding rewards error: " ++ msg)

/-- Parsed stdout of `pocketd query staking validator`: either the
`tokens` field is missing, empty or the string "0" (the
`if not tokens or tokens == "0"` branch), or it parses with int(...)
to this amount. -/
inductive ValidatorResponse where
  | noTokens
  | tokens (upokt : Int)
deriving DecidableEq

/-- get_validator_stake_balance (cli.py:1755): first converts the operator
address to an account address (fatal on failure), then queries liquid
balance on the converted account address, validator outstanding rewards,
and the staking validator tokens; returns
(liquid_balance, staked_balance, validator_rewards, success, error_message).
The liquid query outcome is a function of the queried account address,
so that the dependence of the liquid lookup on the conversion result is
explicit. -/
def get_validator_stake_balance (convQ : ConvOutcome)
    (liquidQ : String → QueryOutcome BankBalancesResponse)
    (valRewardsQ : QueryOutcome ValRewardsResponse)
    (stakeQ : QueryOutcome ValidatorResponse) : ℚ × ℚ × ℚ × Bool × String :=
  let conv := get_validator_account_address convQ
  let account_address := conv.1
  let addr_success := conv.2.1
  let addr_error := conv.2.2
  if !addr_success then
    (0, 0, 0, false, "Address conversion failed: " ++ addr_error)
  else
    let l := get_liquid_balance (liquidQ account_address)
    let liquid_balance := l.1
    let liquid_success := l.2.1
    let v := get_validator_outstanding_rewards valRewardsQ
    let validator_rewards := v.1
    let validator_success := v.2.1
    match stakeQ with
    | .processFailure _ =>
        (liquid_balance, 0, validator_rewards, liquid_success || validator_success,
          "No validator stake found")
    | .ok .noTokens =>
        (liquid_balance, 0, validator_rewards, liquid_success || validator_success,
          "No validator stake found")
    | .ok (.tokens upokt_staked) =>
        let pokt_staked := upoktToPokt upokt_staked
        let success := liquid_success || decide (pokt_staked > 0) || validator_success
        let error_msg := if success then ("") else ("No balances found")
        (liquid_balance, pokt_staked, validator_rewards, success, error_msg)
    | .timeout =>
        (liquid_balance, 0, validator_rewards, liquid_success || validator_success,
          "Validator stake query timeout")
    | .badJson =>
        (liquid_balance, 0, validator_rewards, liquid_success || validator_success,
          "Invalid validator stake JSON response")
    | .exn msg =>
        (liquid_balance, 0, validator_rewards, liquid_success || validator_success,
          "Validator stake error: " ++ msg)

/-! ## Per-category parallel fetchers

Each query_*_parallel function submits one closure per address to a
ThreadPoolExecutor; every closure runs exactly once, and under a single
shared lock it increments the completion counter and records its outcome
into the shared results dict (keyed by the address) or the shared failed
list.  The shared state is modelled by FetchState, one completion by
recordOutcome, and a whole run by a fold of recordOutcome over the list of
addresses in the order their critical sections execute; that order is an
arbitrary permutation of the submitted address list. -/

/-- Shared mutable state of one per-category fetch: the results dict (as
an insertion-ordered association list), the failed list, and the
completion counter, all updated together under the lock. -/
structure FetchState (R : Type) where
  results : List (String × R)
  failed : List (String × String)
  completed_count : Nat
deriving DecidableEq

/-- One completed address: under the lock, increment the counter and
record the adapter outcome into results (on success) or failed. -/
def recordOutcome {R : Type} (st : FetchState R) (address : String)
    (outcome : Except String R) : FetchState R :=
  match outcome with
  | .ok r =>
      { st with completed_count := st.completed_count + 1,
                results := st.results ++ [(address, r)] }
  | .error e =>
      { st with completed_count := st.completed_count + 1,
                failed := st.failed ++ [(address, e)] }

/-- A complete fetch run: all submitted closures execute, their critical
sections in the order given by `order`. -/
def runFetch {R : Type} (adapt : String → Except String R)
    (order : List String) : FetchState R :=
  order.foldl (fun st address => recordOutcome st address (adapt address)) ⟨[], [], 0⟩

/-- The addresses that received an outcome, successes then failures. -/
def outcomeAddresses {R : Type} (st : FetchState R) : List String :=
  st.results.map Prod.fst ++ st.failed.map Prod.fst

/-- The per-address closure of query_liquid_balances_parallel: store the
balance on success, the error on failure. -/
def liquidOutcome (liq : String → QueryOutcome BankBalancesResponse)
    (address : String) : Except String ℚ :=
  let r := get_liquid_balance (liq address)
  if r.2.1 then .ok r.1 else .error r.2.2

/-- Result bundle of query_liquid_balances_parallel. -/
structure LiquidBundle where
  results : List (String × ℚ)
  failed : List (String × String)
  total_balance : ℚ
deriving DecidableEq

/-- query_liquid_balances_parallel (cli.py:1816), parameterized by the
per-address query outcome assignment `liq` and the completion order. -/
def query_liquid_balances_parallel (liq : String → QueryOutcome BankBalancesResponse)
    (order : List String) : LiquidBundle :=
  let st := runFetch (liquidOutcome liq) order
  { results := st.results
    failed := st.failed
    total_balance := (st.results.map (fun p => p.2)).sum }

/-- The per-address record stored by the app and node stake fetchers:
liquid, staked, and their total, computed at record time. -/
structure StakeRecord where
  liquid : ℚ
  staked : ℚ
  total : ℚ
deriving DecidableEq

/-- The per-address closure of query_app_stakes_parallel. -/
def appOutcome (liq : String → QueryOutcome BankBalancesResponse)
    (stk : String → QueryOutcome StakeResponse)
    (address : String) : Except String StakeRecord :=
  let r := get_app_stake_balance (liq address) (stk address)
  if r.2.2.1 then .ok ⟨r.1, r.2.1, r.1 + r.2.1⟩ else .error r.2.2.2

/-- The per-address closure of query_node_stakes_parallel. -/
def nodeOutcome (liq : String → QueryOutcome BankBalancesResponse)
    (stk : String → QueryOutcome StakeResponse)
    (address : String) : Except String StakeRecord :=
  let r := get_node_stake_balance (liq address) (stk address)
  if r.2.2.1 then .ok ⟨r.1, r.2.1, r.1 + r.2.1⟩ else .error r.2.2.2

/-- Result bundle of the app and node stake fetchers. -/
structure StakeBundle where
  results : List (String × StakeRecord)
  failed : List (String × String)
  total_liquid : ℚ
  total_staked : ℚ
  total_combined : ℚ
deriving DecidableEq

/-- query_app_stakes_parallel (cli.py:1853). -/
def query_app_stakes_parallel (liq : String → QueryOutcome BankBalancesResponse)
    (stk : String → QueryOutcome StakeResponse)
    (order : List String) : StakeBundle :=
  let st := runFetch (appOutcome liq stk) order
  { results := st.results
    failed := st.failed
    total_liquid := (st.results.map (fun p => p.2.liquid)).sum
    total_staked := (st.results.map (fun p => p.2.staked)).sum
    total_combined := (st.results.map (fun p => p.2.total)).sum }

/-- query_node_stakes_parallel (cli.py:1896). -/
def query_node_stakes_parallel (liq : String → QueryOutcome BankBalancesResponse)
    (stk : String → QueryOutcome StakeResponse)
    (order : List String) : StakeBundle :=
  let st := runFetch (nodeOutcome liq stk) order
  { results := st.results
    failed := st.failed
    total_liquid := (st.results.map (fun p => p.2.liquid)).sum
    total_staked := (st.results.map (fun p => p.2.staked)).sum
    total_combined := (st.results.map (fun p => p.2.total)).sum }

/-- The per-address record stored by the delegator stake fetcher. -/
structure DelegatorRecord where
  liquid : ℚ
  delegator_rewards : ℚ
  total : ℚ
deriving DecidableEq

/-- The per-address closure of query_delegator_stakes_parallel. -/
def delegatorOutcome (liq : String → QueryOutcome BankBalancesResponse)
    (rew : String → QueryOutcome RewardsResponse)
    (address : String) : Except String DelegatorRecord :=
  let r := get_delegator_stake_balance (liq address) (rew address)
  if r.2.2.1 then .ok ⟨r.1, r.2.1, r.1 + r.2.1⟩ else .error r.2.2.2

/-- Result bundle of query_delegator_stakes_parallel. -/
structure DelegatorBundle where
  results : List (String × DelegatorRecord)
  failed : List (String × String)
  total_liquid : ℚ
  total_delegator_rewards : ℚ
  total_combined : ℚ
deriving DecidableEq

/-- query_delegator_stakes_parallel (cli.py:1939). -/
def query_delegator_stakes_parallel (liq : String → QueryOutcome BankBalancesResponse)
    (rew : String → QueryOutcome RewardsResponse)
    (order : List String) : DelegatorBundle :=
  let st := runFetch (delegatorOutcome liq rew) order
  { results := st.results
    failed := st.failed
    total_liquid := (st.results.map (fun p => p.2.liquid)).sum
    total_delegator_rewards := (st.results.map (fun p => p.2.delegator_rewards)).sum
    total_combined := (st.results.map (fun p => p.2.total)).sum }

/-- The per-address record stored by the validator stake fetcher. -/
structure ValidatorRecord where
  liquid : ℚ
  staked : ℚ
  validator_rewards : ℚ
  total : ℚ
deriving DecidableEq

/-- The per-address closure of query_validator_stakes_parallel. -/
def validatorOutcome (conv : String → ConvOutcome)
    (liq : String → QueryOutcome BankBalancesResponse)
    (vrew : String → QueryOutcome ValRewardsResponse)
    (vstk : String → QueryOutcome ValidatorResponse)
    (address : String) : Except String ValidatorRecord :=
  let r := get_validator_stake_balance (conv address) liq (vrew address) (vstk address)
  if r.2.2.2.1 then .ok ⟨r.1, r.2.1, r.2.2.1, r.1 + r.2.1 + r.2.2.1⟩
  else .error r.2.2.2.2

/-- Result bundle of query_validator_stakes_parallel. -/
structure ValidatorBundle where
  results : List (String × ValidatorRecord)
  failed : List (String × String)
  total_liquid : ℚ
  total_staked : ℚ
  total_validator_rewards : ℚ
  total_combined : ℚ
deriving DecidableEq

/-- query_validator_stakes_parallel (cli.py:1982). -/
def query_validator_stakes_parallel (conv : String → ConvOutcome)
    (liq : String → QueryOutcome BankBalancesResponse)
    (vrew : String → QueryOutcome ValRewardsResponse)
    (vstk : String → QueryOutcome ValidatorResponse)
    (order : List String) : ValidatorBundle :=
  let st := runFetch (validatorOutcome conv liq vrew vstk) order
  { results := st.results
    failed := st.failed
    total_liquid := (st.results.map (fun p => p.2.liquid)).sum
    total_staked := (st.results.map (fun p => p.2.staked)).sum
    total_validator_rewards := (st.results.map (fun p => p.2.validator_rewards)).sum
    total_combined := (st.results.map (fun p => p.2.total)).sum }

/-! ## Dataset validation and the treasury command -/

/-- The five category address lists of a treasury dataset, as extracted by
data.get(key, []) in validate_and_deduplicate_addresses and treasury. -/
structure TreasuryData where
  liquid : List String
  app_stakes : List String
  node_stakes : List String
  validator_stakes : List String
  delegator_stakes : List String
deriving DecidableEq

/-- The (array_name, addresses) pairs in the order both validation loops
and the treasury command traverse them. -/
def arrayEntries (d : TreasuryData) : List (String × List String) :=
  [("liquid", d.liquid), ("app_stakes", d.app_stakes), ("node_stakes", d.node_stakes),
   ("validator_stakes", d.validator_stakes), ("delegator_stakes", d.delegator_stakes)]

/-- The report printed for one offending array: each address occurring
more than once, with its repeat count (the Python list comprehension over
duplicates followed by deduplication through set()). -/
def dupReport (addresses : List String) : List (String × Nat) :=
  ((addresses.filter (fun a => decide (1 < addresses.count a))).dedup).map
    (fun a => (a, addresses.count a))

/-- One address examined by the cross-array duplicate loop: if already
seen, append the current array name to its conflicts entry; otherwise mark
it seen with the current array name as its initial conflicts entry. -/
def crossStep (acc : List String × List (String × List String))
    (array_name : String) (addr : String) :
    List String × List (String × List String) :=
  if addr ∈ acc.1 then
    (acc.1, acc.2.map (fun p => if p.1 = addr then (p.1, p.2 ++ [array_name]) else p))
  else
    (addr :: acc.1, acc.2 ++ [(addr, [array_name])])

/-- The cross-array duplicate loop over one (array_name, addresses) pair. -/
def crossEntry (acc : List String × List (String × List String))
    (entry : String × List String) : List String × List (String × List String) :=
  entry.2.foldl (fun a addr => crossStep a entry.1 addr) acc

/-- The full conflicts map built by the cross-array duplicate loop:
for every address, the list of array names under which it was seen. -/
def crossConflicts (entries : List (String × List String)) :
    List (String × List String) :=
  (entries.foldl crossEntry ([], [])).2

/-- Validation failure: either duplicates inside a single category array
(with the offending array name and its duplicate report), or addresses
present in more than one array (with all their array names). -/
inductive ValidationError where
  | withinArrayDuplicates (array_name : String) (report : List (String × Nat))
  | crossArrayDuplicates (conflicts : List (String × List String))
deriving DecidableEq

/-- validate_and_deduplicate_addresses (cli.py:2565): scan the five arrays
in order and reject at the first one containing internal duplicates,
reporting the duplicates of that array with counts; otherwise build the
cross-array conflicts map and reject if any address has more than one
array, reporting all of them; otherwise return the data unchanged. -/
def validate_and_deduplicate_addresses (d : TreasuryData) :
    Except ValidationError TreasuryData :=
  match (arrayEntries d).find? (fun p => !(p.2.dedup.length == p.2.length)) with
  | some offending =>
      .error (.withinArrayDuplicates offending.1 (dupReport offending.2))
  | none =>
      let cross_duplicates :=
        (crossConflicts (arrayEntries d)).filter (fun p => decide (1 < p.2.length))
      if cross_duplicates.isEmpty then .ok d
      else .error (.crossArrayDuplicates cross_duplicates)

/-- The adapter outcome assignments a whole treasury run consumes: one
query outcome per (call kind, address). -/
structure TreasuryAdapters where
  liq : String → QueryOutcome BankBalancesResponse
  appStk : String → QueryOutcome StakeResponse
  nodeStk : String → QueryOutcome StakeResponse
  conv : String → ConvOutcome
  valRew : String → QueryOutcome ValRewardsResponse
  valStk : String → QueryOutcome ValidatorResponse
  delRew : String → QueryOutcome RewardsResponse

/-- The result bundle of one category inside the treasury results map. -/
inductive CategoryBundle where
  | liquidB (b : LiquidBundle)
  | appStakesB (b : StakeBundle)
  | nodeStakesB (b : StakeBundle)
  | validatorStakesB (b : ValidatorBundle)
  | delegatorStakesB (b : DelegatorBundle)
deriving DecidableEq

/-- The outer category-level pool width: ThreadPoolExecutor(max_workers=4)
in the treasury command (cli.py:1086, commented "One worker per category"). -/
def category_executor_max_workers : Nat := 4

/-- The categories the treasury command submits a fetcher for: exactly
those whose address list is non-empty, in submission order. -/
def scheduledCategories (d : TreasuryData) : List String :=
  ((arrayEntries d).filter (fun p => !p.2.isEmpty)).map Prod.fst

/-- The results map collected by the treasury command (cli.py:1082):
one entry per non-empty category, holding the bundle of that category; an empty
category gets no future and hence no results entry.  Each fetcher is run
with the address list of the category as completion order. -/
def treasury_results (A : TreasuryAdapters) (d : TreasuryData) :
    List (String × CategoryBundle) :=
  (if !d.liquid.isEmpty then
    [("liquid", .liquidB (query_liquid_balances_parallel A.liq d.liquid))] else []) ++
  (if !d.app_stakes.isEmpty then
    [("app_stakes", .appStakesB (query_app_stakes_parallel A.liq A.appStk d.app_stakes))] else []) ++
  (if !d.node_stakes.isEmpty then
    [("node_stakes", .nodeStakesB (query_node_stakes_parallel A.liq A.nodeStk d.node_stakes))] else []) ++
  (if !d.validator_stakes.isEmpty then
    [("validator_stakes", .validatorStakesB
      (query_validator_stakes_parallel A.conv A.liq A.valRew A.valStk d.validator_stakes))] else []) ++
  (if !d.delegator_stakes.isEmpty then
    [("delegator_stakes", .delegatorStakesB
      (query_delegator_stakes_parallel A.liq A.delRew d.delegator_stakes))] else [])

/-- The treasury dataset file as the loader distinguishes it: missing file,
invalid JSON, JSON that is not an object, a recognized key bound to a
non-array value, or a well-formed dataset. -/
inductive LoadInput where
  | missing
  | invalidJson
  | notAnObject
  | keyNotArray (key : String)
  | wellFormed (d : TreasuryData)

/-- load_treasury_addresses (cli.py:2617): invalid JSON, a non-object,
a non-array recognized key, and a validation failure all abort with exit
code 1; otherwise the validated data is returned.  (The missing-file case
is handled by the treasury command before this function is called.) -/
def load_treasury_addresses : LoadInput → Except Nat TreasuryData
  | .missing => .error 1
  | .invalidJson => .error 1
  | .notAnObject => .error 1
  | .keyNotArray _ => .error 1
  | .wellFormed d =>
      match validate_and_deduplicate_addresses d with
      | .error _ => .error 1
      | .ok dValid => .ok dValid

/-- Observable outcome of one treasury command invocation: its exit code,
whether any balance queries were issued, and the rendered results map
(none when the run aborted before querying). -/
structure TreasuryRunResult where
  exit_code : Nat
  queries_issued : Bool
  report : Option (List (String × CategoryBundle))
deriving DecidableEq

/-- The treasury command (cli.py:1034): exit 1 if the file is missing or
loading/validation fails, before any query; otherwise run the scheduled
category fetchers, render the report, and finish with exit code 0. -/
def treasury (input : LoadInput) (A : TreasuryAdapters) : TreasuryRunResult :=
  match input with
  | .missing => { exit_code := 1, queries_issued := false, report := none }
  | inp =>
      match load_treasury_addresses inp with
      | .error code => { exit_code := code, queries_issued := false, report := none }
      | .ok d =>
          { exit_code := 0
            queries_issued := !(scheduledCategories d).isEmpty
            report := some (treasury_results A d) }

/-! A binary64 model of the float arithmetic the program actually performs.
The exact-rational definitions above idealize Python float arithmetic; the
definitions below model it faithfully on the normal range: a value is
rounded to 53 significant bits with round-to-nearest, ties to even.  The
exponent range is unbounded (no overflow or underflow), which coincides
with IEEE-754 binary64 everywhere in this development, since every number
that appears lies far inside the normal range. -/

/-- Round half to even to an integer: the tie-breaking rule of IEEE-754
default rounding and of CPython float formatting. -/
def rne (x : ℚ) : ℤ :=
  if x - ⌊x⌋ < 1 / 2 then ⌊x⌋
  else if 1 / 2 < x - ⌊x⌋ then ⌊x⌋ + 1
  else if ⌊x⌋ % 2 = 0 then ⌊x⌋ else ⌊x⌋ + 1

/-- The binary64 double nearest to q (round to nearest, ties to even,
unbounded exponent range): the significand is q scaled into [2^52, 2^53)
and rounded half to even. -/
def float64 (q : ℚ) : ℚ :=
  if q = 0 then 0
  else if q < 0 then
    -((rne (-q / 2 ^ (Int.log 2 (-q) - 52)) : ℚ) * 2 ^ (Int.log 2 (-q) - 52))
  else (rne (q / 2 ^ (Int.log 2 q - 52)) : ℚ) * 2 ^ (Int.log 2 q - 52)

/-- The conversion site `upokt_balance / 1_000_000` as the program
computes it: CPython divides the two integers to the correctly rounded
double. -/
def upoktToPokt64 (n : Int) : ℚ := float64 ((n : ℚ) / 1000000)

/-- Rendering a double at two decimals: the integer number of hundredths
printed by the format specifier `:,.2f`, which rounds the binary value
half to even. -/
def renderCentis64 (q : ℚ) : ℤ := rne (100 * q)

/-- Python float addition: the binary64 sum of the two operands. -/
def fadd (a b : ℚ) : ℚ := float64 (a + b)

/-- The Python builtin sum over a list of floats: a left fold of float
addition starting from 0. -/
def fsum (xs : List ℚ) : ℚ := xs.foldl (fun acc x => fadd acc x) 0

/-- get_liquid_balance (cli.py:1568) with its division site modelled in
binary64 instead of exact rationals. -/
def get_liquid_balance64 : QueryOutcome BankBalancesResponse → ℚ × Bool × String
  | .ok r => (upoktToPokt64 (firstUpokt r.balances), true, "")
  | .processFailure stderr => (0, false, strOr stderr ("Unknown error"))
  | .timeout => (0, false, "Query timeout")
  | .badJson => (0, false, "Invalid JSON response")
  | .exn msg => (0, false, msg)

/-- get_app_stake_balance (cli.py:1509) with its division sites modelled
in binary64 instead of exact rationals. -/
def get_app_stake_balance64 (liquidQ : QueryOutcome BankBalancesResponse)
    (stakeQ : QueryOutcome StakeResponse) : ℚ × ℚ × Bool × String :=
  let l := get_liquid_balance64 liquidQ
  let liquid_balance := l.1
  let liquid_success := l.2.1
  let liquid_error := l.2.2
  match stakeQ with
  | .processFailure _ =>
      if liquid_success then (liquid_balance, 0, true, "No app stake found")
      else (0, 0, false, strOr liquid_error ("No app stake found"))
  | .ok .noStake =>
      if liquid_success then (liquid_balance, 0, true, "No app stake found")
      else (0, 0, false, strOr liquid_error ("No app stake found"))
  | .ok (.stake upokt_staked) =>
      let pokt_staked := upoktToPokt64 upokt_staked
      let success := liquid_success || decide (pokt_staked > 0)
      let error_msg := if success then ("") else strOr liquid_error ("No balances found")
      (liquid_balance, pokt_staked, success, error_msg)
  | .timeout =>
      if liquid_success then (liquid_balance, 0, true, "App stake query timeout")
      else (0, 0, false, "Query timeout")
  | .badJson =>
      if liquid_success then (liquid_balance, 0, true, "Invalid app stake JSON response")
      else (0, 0, false, "Invalid JSON response")
  | .exn msg =>
      if liquid_success then (liquid_balance, 0, true, "App stake error: " ++ msg)
      else (0, 0, false, msg)

/-- The per-address closure of query_app_stakes_parallel with the stored
total computed by binary64 addition. -/
def appOutcome64 (liq : String → QueryOutcome BankBalancesResponse)
    (stk : String → QueryOutcome StakeResponse)
    (address : String) : Except String StakeRecord :=
  let r := get_app_stake_balance64 (liq address) (stk address)
  if r.2.2.1 then .ok ⟨r.1, r.2.1, fadd r.1 r.2.1⟩ else .error r.2.2.2

/-- query_app_stakes_parallel (cli.py:1853) with every float operation
modelled in binary64: the per-record totals are float additions and the
three bundle totals are float summations. -/
def query_app_stakes_parallel64 (liq : String → QueryOutcome BankBalancesResponse)
    (stk : String → QueryOutcome StakeResponse)
    (order : List String) : StakeBundle :=
  let st := runFetch (appOutcome64 liq stk) order
  { results := st.results
    failed := st.failed
    total_liquid := fsum (st.results.map (fun p => p.2.liquid))
    total_staked := fsum (st.results.map (fun p => p.2.staked))
    total_combined := fsum (st.results.map (fun p => p.2.total)) }

/-- A liquid adapter assignment holding 2^53 POKT (9007199254740992000000
upokt) on addr1 and nothing on any other address. -/
def hugeLiquidAdapter : String → QueryOutcome BankBalancesResponse := fun a =>
  if a = "addr1" then .ok ⟨[("upokt", 9007199254740992000000)]⟩ else .ok ⟨[("upokt", 0)]⟩

/-- A stake adapter assignment reporting a stake of exactly 1 POKT
(1_000_000 upokt) for every address. -/
def onePoktStakeAdapter : String → QueryOutcome StakeResponse := fun _ =>
  .ok (.stake 1000000)

/-! ## Helper lemmas -/

theorem rne_intCast (m : ℤ) : rne (m : ℚ) = m := by
  unfold rne
  rw [Int.floor_intCast]
  simp

theorem rne_eq_of_floor_lt (x : ℚ) (f : ℤ) (hf : ⌊x⌋ = f) (h : x - f < 1 / 2) :
    rne x = f := by
  unfold rne
  rw [hf, if_pos h]

theorem rne_eq_of_floor_gt (x : ℚ) (f : ℤ) (hf : ⌊x⌋ = f) (h : 1 / 2 < x - f) :
    rne x = f + 1 := by
  unfold rne
  rw [hf, if_neg (by linarith), if_pos h]

theorem rne_eq_of_tie_even (x : ℚ) (f : ℤ) (hf : ⌊x⌋ = f) (h : x - f = 1 / 2)
    (he : f % 2 = 0) : rne x = f := by
  unfold rne
  rw [hf, if_neg (by rw [h]; exact lt_irrefl _), if_neg (by rw [h]; exact lt_irrefl _),
    if_pos he]

theorem rne_sub_abs (x : ℚ) : |(rne x : ℚ) - x| ≤ 1 / 2 := by
  have h0 : (⌊x⌋ : ℚ) ≤ x := Int.floor_le x
  have h1 : x < ⌊x⌋ + 1 := Int.lt_floor_add_one x
  unfold rne
  split_ifs with hlt hgt hev <;>
    rw [abs_le] <;> constructor <;> push_cast <;> linarith

theorem int_log_eq_of (q : ℚ) (k : ℤ) (hq : 0 < q)
    (h1 : (2 : ℚ) ^ k ≤ q) (h2 : q < (2 : ℚ) ^ (k + 1)) : Int.log 2 q = k := by
  have hub : Int.log 2 q < k + 1 := by
    have h := (@Int.lt_zpow_iff_log_lt ℚ _ _ 2 (by norm_num) (k + 1) q hq).mp
    exact h (by exact_mod_cast h2)
  have hlb : k ≤ Int.log 2 q := by
    have h := (@Int.zpow_le_iff_le_log ℚ _ _ 2 (by norm_num) k q hq).mp
    exact h (by exact_mod_cast h1)
  omega

theorem float64_eq_of (q : ℚ) (k m : ℤ) (hq : 0 < q)
    (h1 : (2 : ℚ) ^ k ≤ q) (h2 : q < (2 : ℚ) ^ (k + 1))
    (hm : rne (q / 2 ^ (k - 52)) = m) :
    float64 q = (m : ℚ) * 2 ^ (k - 52) := by
  unfold float64
  rw [if_neg (ne_of_gt hq), if_neg (not_lt.mpr (le_of_lt hq)),
    int_log_eq_of q k hq h1 h2, hm]

theorem float64_of_rep (q : ℚ) (k m : ℤ) (hq : 0 < q)
    (h1 : (2 : ℚ) ^ k ≤ q) (h2 : q < (2 : ℚ) ^ (k + 1))
    (hm : q = (m : ℚ) * 2 ^ (k - 52)) : float64 q = q := by
  have hpow : (0 : ℚ) < 2 ^ (k - 52) := by positivity
  have hdiv : q / 2 ^ (k - 52) = (m : ℚ) := by
    rw [hm]
    field_simp
  have := float64_eq_of q k m hq h1 h2 (by rw [hdiv, rne_intCast])
  rw [this, ← hm]

theorem float64_abs_sub_le (q : ℚ) (hq : 0 < q) :
    |float64 q - q| ≤ q / 2 ^ 53 := by
  unfold float64
  rw [if_neg (ne_of_gt hq), if_neg (not_lt.mpr (le_of_lt hq))]
  set e := Int.log 2 q - 52 with he
  have h2e : (0 : ℚ) < 2 ^ e := by positivity
  have key : |(rne (q / 2 ^ e) : ℚ) - q / 2 ^ e| ≤ 1 / 2 := rne_sub_abs _
  have habs : |(rne (q / 2 ^ e) : ℚ) * 2 ^ e - q| =
      |(rne (q / 2 ^ e) : ℚ) - q / 2 ^ e| * 2 ^ e := by
    rw [show |(rne (q / 2 ^ e) : ℚ) - q / 2 ^ e| * 2 ^ e =
        |(rne (q / 2 ^ e) : ℚ) - q / 2 ^ e| * |(2 : ℚ) ^ e| by rw [abs_of_pos h2e],
      ← abs_mul]
    congr 1
    field_simp
  rw [habs]
  have step1 : |(rne (q / 2 ^ e) : ℚ) - q / 2 ^ e| * 2 ^ e ≤ 1 / 2 * 2 ^ e :=
    mul_le_mul_of_nonneg_right key (le_of_lt h2e)
  have hlog : (2 : ℚ) ^ Int.log 2 q ≤ q := by
    have h := @Int.zpow_log_le_self ℚ _ _ 2 q (by norm_num) hq
    exact_mod_cast h
  have step2 : (1 / 2 : ℚ) * 2 ^ e ≤ q / 2 ^ 53 := by
    have hsplit : (1 / 2 : ℚ) * 2 ^ e = 2 ^ Int.log 2 q / 2 ^ (53 : ℕ) := by
      rw [he, show Int.log 2 q - 52 = Int.log 2 q - 53 + 1 by ring,
        zpow_add₀ (by norm_num : (2 : ℚ) ≠ 0),
        zpow_sub₀ (by norm_num : (2 : ℚ) ≠ 0)]
      rw [show ((53 : ℤ) : ℤ) = ((53 : ℕ) : ℤ) by norm_num, zpow_natCast]
      ring
    rw [hsplit]
    exact (div_le_div_iff_of_pos_right (by positivity)).mpr hlog
  linarith

theorem float64_one : float64 1 = 1 := by
  apply float64_of_rep 1 0 (2 ^ 52) one_pos (by norm_num) (by norm_num)
  push_cast
  norm_num

theorem float64_two : float64 2 = 2 := by
  apply float64_of_rep 2 1 (2 ^ 52) (by norm_num) (by norm_num) (by norm_num)
  push_cast
  norm_num

theorem float64_two53 : float64 (2 ^ 53) = 2 ^ 53 := by
  apply float64_of_rep (2 ^ 53) 53 (2 ^ 52) (by positivity) (by norm_num) (by norm_num)
  push_cast
  norm_num

theorem float64_two53_add_one : float64 (2 ^ 53 + 1) = 2 ^ 53 := by
  have hrne : rne ((2 ^ 53 + 1 : ℚ) / 2 ^ ((53 : ℤ) - 52)) = 2 ^ 52 := by
    rw [show (53 : ℤ) - 52 = 1 by ring]
    apply rne_eq_of_tie_even _ (2 ^ 52)
    · rw [Int.floor_eq_iff]
      constructor
      · push_cast
        norm_num
      · push_cast
        norm_num
    · push_cast
      norm_num
    · decide
  have h := float64_eq_of (2 ^ 53 + 1) 53 (2 ^ 52) (by positivity)
    (by norm_num) (by norm_num) hrne
  rw [h]
  push_cast
  norm_num

theorem upoktToPokt64_zero : upoktToPokt64 0 = 0 := by
  unfold upoktToPokt64
  rw [show ((0 : ℤ) : ℚ) / 1000000 = 0 by norm_num]
  unfold float64
  rw [if_pos rfl]

theorem upoktToPokt64_one_e6 : upoktToPokt64 1000000 = 1 := by
  unfold upoktToPokt64
  rw [show ((1000000 : ℤ) : ℚ) / 1000000 = 1 by norm_num, float64_one]

theorem upoktToPokt64_two53 : upoktToPokt64 9007199254740992000000 = 2 ^ 53 := by
  unfold upoktToPokt64
  rw [show ((9007199254740992000000 : ℤ) : ℚ) / 1000000 = 2 ^ 53 by norm_num, float64_two53]

theorem upoktToPokt64_one : upoktToPokt64 1 = 4722366482869645 / 2 ^ 72 := by
  unfold upoktToPokt64
  rw [show ((1 : ℤ) : ℚ) / 1000000 = 1 / 1000000 by norm_num]
  have hrne : rne ((1 / 1000000 : ℚ) / 2 ^ ((-20 : ℤ) - 52)) = 4722366482869645 := by
    rw [show (-20 : ℤ) - 52 = -72 by ring,
      show ((1 : ℚ) / 1000000) / 2 ^ (-72 : ℤ) = 2 ^ (72 : ℕ) / 1000000 by
        rw [zpow_neg]
        norm_num]
    apply rne_eq_of_floor_lt _ 4722366482869645
    · rw [Int.floor_eq_iff]
      constructor
      · norm_num
      · norm_num
    · norm_num
  have h := float64_eq_of (1 / 1000000) (-20) 4722366482869645 (by norm_num)
    (by norm_num) (by norm_num) hrne
  rw [h, show (-20 : ℤ) - 52 = -72 by ring, zpow_neg]
  norm_num

theorem fadd_zero_one : fadd 0 1 = 1 := by
  unfold fadd
  rw [zero_add, float64_one]

theorem fadd_one_one : fadd 1 1 = 2 := by
  unfold fadd
  rw [show (1 : ℚ) + 1 = 2 by norm_num, float64_two]

theorem fadd_zero_two53 : fadd 0 (2 ^ 53) = 2 ^ 53 := by
  unfold fadd
  rw [zero_add, float64_two53]

theorem fadd_two53_zero : fadd (2 ^ 53) 0 = 2 ^ 53 := by
  unfold fadd
  rw [add_zero, float64_two53]

theorem fadd_two53_one : fadd (2 ^ 53) 1 = 2 ^ 53 := by
  unfold fadd
  rw [float64_two53_add_one]

theorem renderCentis64_one : renderCentis64 1 = 100 := by
  unfold renderCentis64
  rw [show (100 : ℚ) * 1 = ((100 : ℤ) : ℚ) by norm_num, rne_intCast]

theorem renderCentis64_micro : renderCentis64 (4722366482869645 / 2 ^ 72) = 0 := by
  unfold renderCentis64
  apply rne_eq_of_floor_lt _ 0
  · rw [Int.floor_eq_iff]
    constructor
    · norm_num
    · norm_num
  · norm_num

theorem firstUpokt_of_no_upokt (bs : List (String × Int))
    (h : ∀ p ∈ bs, p.1 ≠ "upokt") : firstUpokt bs = 0 := by
  induction bs with
  | nil => rfl
  | cons p rest ih =>
      obtain ⟨denom, amount⟩ := p
      have hd : denom ≠ "upokt" := h (denom, amount) (by simp)
      simp only [firstUpokt, if_neg hd]
      exact ih (fun q hq => h q (by simp [hq]))

theorem firstUpokt_first_match (xs ys : List (String × Int)) (n : Int)
    (h : ∀ p ∈ xs, p.1 ≠ "upokt") :
    firstUpokt (xs ++ ("upokt", n) :: ys) = n := by
  induction xs with
  | nil => simp [firstUpokt]
  | cons p rest ih =>
      obtain ⟨denom, amount⟩ := p
      have hd : denom ≠ "upokt" := h (denom, amount) (by simp)
      simp only [List.cons_append, firstUpokt, if_neg hd]
      exact ih (fun q hq => h q (by simp [hq]))

/-- Counterexample for claim C6: the program divides in binary64
(cli.py:1595), and 1 upokt does not convert to exactly 0.000001
internally: the internal value is the nearest double, 4722366482869645 /
2^72, and multiplying it back by 1,000,000 does not return 1, so the
conversion is not exact. -/
theorem base_unit_conversion_not_exact :
    upoktToPokt64 1 ≠ 1 / 1000000 ∧
    upoktToPokt64 1 = 4722366482869645 / 2 ^ 72 ∧
    upoktToPokt64 1 * 1000000 ≠ 1 := by
  refine ⟨?_, upoktToPokt64_one, ?_⟩
  · rw [upoktToPokt64_one]
    norm_num
  · rw [upoktToPokt64_one]
    norm_num

/-- Claim C6 (amended): base-unit to display-unit conversion divides the
integer upokt amount by 1,000,000 in binary64: the internal value is the
correctly rounded double of n/1,000,000, within relative error 2^-53 of
the exact quotient rather than exactly equal to it.  1_000_000 still
converts to exactly 1 (rendered 1.00), while 1 converts to the double
4722366482869645/2^72 (about 1.00000000000000002e-6): a positive value,
not exactly 0.000001, that still renders as 0.00 at two decimals. -/
theorem base_unit_conversion_binary64 (n : ℕ) (hn : 0 < n) :
    |upoktToPokt64 (n : Int) - (n : ℚ) / 1000000| ≤ ((n : ℚ) / 1000000) / 2 ^ 53 ∧
    upoktToPokt64 1000000 = 1 ∧
    renderCentis64 (upoktToPokt64 1000000) = 100 ∧
    upoktToPokt64 1 = 4722366482869645 / 2 ^ 72 ∧
    (0 : ℚ) < upoktToPokt64 1 ∧
    upoktToPokt64 1 ≠ 1 / 1000000 ∧
    renderCentis64 (upoktToPokt64 1) = 0 := by
  refine ⟨?_, upoktToPokt64_one_e6, ?_, upoktToPokt64_one, ?_, ?_, ?_⟩
  · have hq : (0 : ℚ) < (n : ℚ) / 1000000 := by
      have : (0 : ℚ) < (n : ℚ) := by exact_mod_cast hn
      positivity
    have h := float64_abs_sub_le ((n : ℚ) / 1000000) hq
    unfold upoktToPokt64
    rw [show (((n : ℤ) : ℚ)) = (n : ℚ) by push_cast ; ring]
    exact h
  · rw [upoktToPokt64_one_e6, renderCentis64_one]
  · rw [upoktToPokt64_one]
    positivity
  · rw [upoktToPokt64_one]
    norm_num
  · rw [upoktToPokt64_one, renderCentis64_micro]

/-- Witness for base_unit_conversion_binary64 at the concrete base amount
n = 7: the converted double is within relative error 2^-53 of 7/1,000,000,
and the concrete conversion and rendering facts hold. -/
theorem base_unit_conversion_binary64_witness :
    |upoktToPokt64 ((7 : ℕ) : Int) - ((7 : ℕ) : ℚ) / 1000000| ≤
      (((7 : ℕ) : ℚ) / 1000000) / 2 ^ 53 ∧
    upoktToPokt64 1000000 = 1 ∧
    renderCentis64 (upoktToPokt64 1) = 0 :=
  ⟨(base_unit_conversion_binary64 7 (by decide)).1,
   (base_unit_conversion_binary64 7 (by decide)).2.1,
   (base_unit_conversion_binary64 7 (by decide)).2.2.2.2.2.2⟩

/-- Claim C10: a bank-balances query that completes with exit code 0 and a
well-formed response is a success: with an empty balances list or no upokt
entry the balance is 0 and the outcome is still a success (not a failure),
and when upokt entries are present only the first one is used. -/
theorem liquid_wellformed_is_success (bs : List (String × Int)) :
    (get_liquid_balance (.ok ⟨bs⟩)).2.1 = true ∧
    (bs = [] → get_liquid_balance (.ok ⟨bs⟩) = (0, true, "")) ∧
    ((∀ p ∈ bs, p.1 ≠ "upokt") → get_liquid_balance (.ok ⟨bs⟩) = (0, true, "")) ∧
    (∀ (xs ys : List (String × Int)) (n : Int), (∀ p ∈ xs, p.1 ≠ "upokt") →
      bs = xs ++ ("upokt", n) :: ys →
      get_liquid_balance (.ok ⟨bs⟩) = (upoktToPokt n, true, "")) := by
  refine ⟨rfl, ?_, ?_, ?_⟩
  · rintro rfl
    simp [get_liquid_balance, firstUpokt, upoktToPokt]
  · intro h
    simp [get_liquid_balance, firstUpokt_of_no_upokt bs h, upoktToPokt]
  · rintro xs ys n h rfl
    simp [get_liquid_balance, firstUpokt_first_match xs ys n h]

/-- Witness for liquid_wellformed_is_success: with a response whose
balances list holds a foo entry and two upokt entries, the first upokt
amount (7 upokt) is the one converted, and the outcome is a success. -/
theorem liquid_wellformed_is_success_witness :
    get_liquid_balance (.ok ⟨[("foo", 3), ("upokt", 7), ("upokt", 9)]⟩) =
      (upoktToPokt 7, true, "") :=
  (liquid_wellformed_is_success [("foo", 3), ("upokt", 7), ("upokt", 9)]).2.2.2
    [("foo", 3)] [("upokt", 9)] 7 (by decide) rfl

/-- Claim C3: for app and node stakes, if the liquid query succeeds and
the stake query fails (non-zero exit) or reports no stake, the outcome is
a success with staked = 0, liquid preserved, and total (liquid + staked)
equal to the liquid amount; and in every case the overall success flag
equals (liquid success OR staked > 0). -/
theorem composite_success_policy
    (liquidQ : QueryOutcome BankBalancesResponse)
    (stakeQ : QueryOutcome StakeResponse) :
    ((get_app_stake_balance liquidQ stakeQ).2.2.1 =
      ((get_liquid_balance liquidQ).2.1 ||
        decide ((get_app_stake_balance liquidQ stakeQ).2.1 > 0))) ∧
    ((get_node_stake_balance liquidQ stakeQ).2.2.1 =
      ((get_liquid_balance liquidQ).2.1 ||
        decide ((get_node_stake_balance liquidQ stakeQ).2.1 > 0))) ∧
    ((get_liquid_balance liquidQ).2.1 = true →
      ((∃ s, stakeQ = .processFailure s) ∨ stakeQ = .ok .noStake) →
      get_app_stake_balance liquidQ stakeQ =
        ((get_liquid_balance liquidQ).1, 0, true, "No app stake found") ∧
      get_node_stake_balance liquidQ stakeQ =
        ((get_liquid_balance liquidQ).1, 0, true, "No node stake found") ∧
      (get_app_stake_balance liquidQ stakeQ).1 + (get_app_stake_balance liquidQ stakeQ).2.1 =
        (get_liquid_balance liquidQ).1 ∧
      (get_node_stake_balance liquidQ stakeQ).1 + (get_node_stake_balance liquidQ stakeQ).2.1 =
        (get_liquid_balance liquidQ).1) := by
  refine ⟨?_, ?_, ?_⟩
  · cases hlok : (get_liquid_balance liquidQ).2.1 <;>
      rcases stakeQ with r | s | _ | _ | m <;>
      first
        | (rcases r with _ | n <;> simp [get_app_stake_balance, hlok])
        | simp [get_app_stake_balance, hlok]
  · cases hlok : (get_liquid_balance liquidQ).2.1 <;>
      rcases stakeQ with r | s | _ | _ | m <;>
      first
        | (rcases r with _ | n <;> simp [get_node_stake_balance, hlok])
        | simp [get_node_stake_balance, hlok]
  · intro hlok habsent
    have happ : get_app_stake_balance liquidQ stakeQ =
        ((get_liquid_balance liquidQ).1, 0, true, "No app stake found") := by
      rcases habsent with ⟨s, rfl⟩ | rfl <;> simp [get_app_stake_balance, hlok]
    have hnode : get_node_stake_balance liquidQ stakeQ =
        ((get_liquid_balance liquidQ).1, 0, true, "No node stake found") := by
      rcases habsent with ⟨s, rfl⟩ | rfl <;> simp [get_node_stake_balance, hlok]
    refine ⟨happ, hnode, ?_, ?_⟩ <;> simp [happ, hnode]

/-- Witness for composite_success_policy: with a liquid balance of exactly
5 POKT (5_000_000 upokt) and a stake query reporting not-found (non-zero
exit code), both the app and node adapters yield success with liquid = 5,
staked = 0, and total = 5. -/
theorem composite_success_policy_witness :
    get_app_stake_balance (.ok ⟨[("upokt", 5000000)]⟩) (.processFailure ("not found")) =
      (5, 0, true, "No app stake found") ∧
    get_node_stake_balance (.ok ⟨[("upokt", 5000000)]⟩) (.processFailure ("not found")) =
      (5, 0, true, "No node stake found") := by
  have h := (composite_success_policy (.ok ⟨[("upokt", 5000000)]⟩)
    (.processFailure ("not found"))).2.2 rfl (Or.inl ⟨"not found", rfl⟩)
  have h5 : (get_liquid_balance (.ok ⟨[("upokt", 5000000)]⟩)).1 = 5 := by
    norm_num [get_liquid_balance, firstUpokt, upoktToPokt]
  exact ⟨by rw [h.1, h5], by rw [h.2.1, h5]⟩

/-- Counterexample for claim C4: a delegator rewards query that ends in a
process failure (non-zero exit code) is reported as a success with rewards
0, not as a failed sub-outcome as the claim requires. -/
theorem delegator_rewards_process_failure_is_success :
    get_delegator_rewards (.processFailure ("rpc error")) = (0, true, "") ∧
    (get_delegator_rewards (.processFailure ("rpc error"))).2.1 ≠ false := by
  refine ⟨rfl, ?_⟩
  simp [get_delegator_rewards]

/-- Claim C4 (amended): the delegator rewards sub-query treats a
successfully completed query with an empty result set as a success with
rewards 0, and also treats a non-zero exit code as a success with rewards
0; only a timeout, a malformed (non-JSON) response, or another exception
yield a failed sub-outcome (success flag false with a non-empty error
reason). -/
theorem delegator_rewards_taxonomy :
    (∀ s, get_delegator_rewards (.processFailure s) = (0, true, "")) ∧
    get_delegator_rewards (.ok ⟨[]⟩) = (0, true, "") ∧
    get_delegator_rewards .timeout = (0, false, "Delegator rewards query timeout") ∧
    get_delegator_rewards .badJson = (0, false, "Invalid delegator rewards JSON response") ∧
    (∀ m, (get_delegator_rewards (.exn m)).2.1 = false ∧
      (get_delegator_rewards (.exn m)).2.2 ≠ "") ∧
    (get_delegator_rewards .timeout).2.2 ≠ "" ∧
    (get_delegator_rewards .badJson).2.2 ≠ "" := by
  refine ⟨fun s => rfl, rfl, rfl, rfl, fun m => ⟨rfl, ?_⟩, by decide, by decide⟩
  intro h
  have hlen := congrArg String.length h
  simp [get_delegator_rewards, String.length_append] at hlen
  exact absurd hlen.1 (by decide)

/-- Claim C5: if the operator-to-account conversion fails, the validator
outcome is a failure with all monetary fields zero and a conversion-failure
reason, and is independent of the liquid, rewards and stake query outcomes
(no such lookup can influence it); conversely, on conversion success the
liquid lookup is performed on the account address the conversion
returned. -/
theorem validator_conversion_gate (convQ : ConvOutcome)
    (liquidQ liquidQ2 : String → QueryOutcome BankBalancesResponse)
    (valRewardsQ valRewardsQ2 : QueryOutcome ValRewardsResponse)
    (stakeQ stakeQ2 : QueryOutcome ValidatorResponse) :
    ((get_validator_account_address convQ).2.1 = false →
      get_validator_stake_balance convQ liquidQ valRewardsQ stakeQ =
        (0, 0, 0, false,
          "Address conversion failed: " ++ (get_validator_account_address convQ).2.2) ∧
      get_validator_stake_balance convQ liquidQ valRewardsQ stakeQ =
        get_validator_stake_balance convQ liquidQ2 valRewardsQ2 stakeQ2) ∧
    ((get_validator_account_address convQ).2.1 = true →
      (get_validator_stake_balance convQ liquidQ valRewardsQ stakeQ).1 =
        (get_liquid_balance (liquidQ (get_validator_account_address convQ).1)).1) := by
  constructor
  · intro hfail
    have h1 : ∀ (lq : String → QueryOutcome BankBalancesResponse)
        (vq : QueryOutcome ValRewardsResponse) (sq : QueryOutcome ValidatorResponse),
        get_validator_stake_balance convQ lq vq sq =
          (0, 0, 0, false,
            "Address conversion failed: " ++ (get_validator_account_address convQ).2.2) := by
      intro lq vq sq
      simp [get_validator_stake_balance, hfail]
    exact ⟨h1 liquidQ valRewardsQ stakeQ,
      (h1 liquidQ valRewardsQ stakeQ).trans (h1 liquidQ2 valRewardsQ2 stakeQ2).symm⟩
  · intro hok
    rcases stakeQ with r | s | _ | _ | m <;>
      first
        | (rcases r with _ | n <;> simp [get_validator_stake_balance, hok])
        | simp [get_validator_stake_balance, hok]

/-- Witness for validator_conversion_gate: a timed-out conversion yields
the zeroed failure outcome whatever the other query outcomes would have
been, and a successful conversion to account pokt1acc feeds that account
address into the liquid lookup. -/
theorem validator_conversion_gate_witness :
    get_validator_stake_balance .timeout (fun _ => .timeout) .timeout .timeout =
      (0, 0, 0, false, "Address conversion failed: Address conversion timeout") ∧
    get_validator_stake_balance .timeout (fun _ => .timeout) .timeout .timeout =
      get_validator_stake_balance .timeout
        (fun _ => .ok ⟨[("upokt", 9000000)]⟩) (.ok .emptyOuter) (.ok .noTokens) ∧
    (get_validator_stake_balance (.ok (some ("pokt1acc")))
        (fun a => if a = "pokt1acc" then .ok ⟨[("upokt", 3000000)]⟩ else .timeout)
        (.ok .emptyOuter) (.ok .noTokens)).1 =
      (get_liquid_balance (.ok ⟨[("upokt", 3000000)]⟩)).1 := by
  have h1 := (validator_conversion_gate .timeout (fun _ => .timeout)
    (fun _ => .ok ⟨[("upokt", 9000000)]⟩) .timeout (.ok .emptyOuter)
    .timeout (.ok .noTokens)).1 rfl
  have h2 := (validator_conversion_gate (.ok (some ("pokt1acc")))
    (fun a => if a = "pokt1acc" then .ok ⟨[("upokt", 3000000)]⟩ else .timeout)
    (fun _ => .timeout) (.ok .emptyOuter) (.ok .emptyOuter)
    (.ok .noTokens) (.ok .noTokens)).2 rfl
  refine ⟨h1.1, h1.2, ?_⟩
  simpa [get_validator_account_address] using h2

theorem outcomeAddresses_recordOutcome {R : Type} (st : FetchState R)
    (a : String) (o : Except String R) :
    (outcomeAddresses (recordOutcome st a o)).Perm (outcomeAddresses st ++ [a]) := by
  cases o with
  | ok r =>
      simp only [recordOutcome, outcomeAddresses, List.map_append, List.map_cons,
        List.map_nil, List.append_assoc]
      exact List.Perm.append_left _ (List.perm_append_comm)
  | error e =>
      simp [recordOutcome, outcomeAddresses, List.append_assoc]

theorem runFetch_foldl_perm {R : Type} (adapt : String → Except String R) :
    ∀ (order : List String) (st : FetchState R),
      (outcomeAddresses (order.foldl
        (fun s a => recordOutcome s a (adapt a)) st)).Perm (outcomeAddresses st ++ order) := by
  intro order
  induction order with
  | nil => intro st; simp
  | cons a rest ih =>
      intro st
      have h1 := ih (recordOutcome st a (adapt a))
      have h2 := (outcomeAddresses_recordOutcome st a (adapt a)).append_right rest
      have h3 : (outcomeAddresses st ++ [a]) ++ rest = outcomeAddresses st ++ (a :: rest) := by
        simp
      exact h3 ▸ (h1.trans h2)

theorem runFetch_perm {R : Type} (adapt : String → Except String R)
    (order : List String) :
    (outcomeAddresses (runFetch adapt order)).Perm order := by
  have h := runFetch_foldl_perm adapt order ⟨[], [], 0⟩
  simpa [runFetch, outcomeAddresses] using h

theorem runFetch_partition {R : Type} (adapt : String → Except String R)
    (addresses order : List String) (hperm : order.Perm addresses)
    (hnodup : addresses.Nodup) :
    ((runFetch adapt order).results.map Prod.fst ++
      (runFetch adapt order).failed.map Prod.fst).Perm addresses ∧
    ((runFetch adapt order).results.map Prod.fst ++
      (runFetch adapt order).failed.map Prod.fst).Nodup ∧
    (runFetch adapt order).results.length + (runFetch adapt order).failed.length =
      addresses.length := by
  have h : ((runFetch adapt order).results.map Prod.fst ++
      (runFetch adapt order).failed.map Prod.fst).Perm addresses :=
    (runFetch_perm adapt order).trans hperm
  refine ⟨h, h.nodup_iff.mpr hnodup, ?_⟩
  have hlen := h.length_eq
  simpa using hlen

/-- Claim C1: each per-category parallel fetcher assigns every input
address exactly one outcome: whatever the adapter outcome assignment and
whatever order completions interleave in, the addresses of the success map
together with the addresses of the failure list are a permutation of the
input list, contain no duplicates when the input has none, and number
exactly N. -/
theorem fetchers_partition_input (addresses order : List String)
    (hperm : order.Perm addresses) (hnodup : addresses.Nodup) :
    (∀ liq,
      ((query_liquid_balances_parallel liq order).results.map Prod.fst ++
        (query_liquid_balances_parallel liq order).failed.map Prod.fst).Perm addresses ∧
      ((query_liquid_balances_parallel liq order).results.map Prod.fst ++
        (query_liquid_balances_parallel liq order).failed.map Prod.fst).Nodup ∧
      (query_liquid_balances_parallel liq order).results.length +
        (query_liquid_balances_parallel liq order).failed.length = addresses.length) ∧
    (∀ liq stk,
      ((query_app_stakes_parallel liq stk order).results.map Prod.fst ++
        (query_app_stakes_parallel liq stk order).failed.map Prod.fst).Perm addresses ∧
      ((query_app_stakes_parallel liq stk order).results.map Prod.fst ++
        (query_app_stakes_parallel liq stk order).failed.map Prod.fst).Nodup ∧
      (query_app_stakes_parallel liq stk order).results.length +
        (query_app_stakes_parallel liq stk order).failed.length = addresses.length) ∧
    (∀ liq stk,
      ((query_node_stakes_parallel liq stk order).results.map Prod.fst ++
        (query_node_stakes_parallel liq stk order).failed.map Prod.fst).Perm addresses ∧
      ((query_node_stakes_parallel liq stk order).results.map Prod.fst ++
        (query_node_stakes_parallel liq stk order).failed.map Prod.fst).Nodup ∧
      (query_node_stakes_parallel liq stk order).results.length +
        (query_node_stakes_parallel liq stk order).failed.length = addresses.length) ∧
    (∀ conv liq vrew vstk,
      ((query_validator_stakes_parallel conv liq vrew vstk order).results.map Prod.fst ++
        (query_validator_stakes_parallel conv liq vrew vstk order).failed.map Prod.fst).Perm
        addresses ∧
      ((query_validator_stakes_parallel conv liq vrew vstk order).results.map Prod.fst ++
        (query_validator_stakes_parallel conv liq vrew vstk order).failed.map Prod.fst).Nodup ∧
      (query_validator_stakes_parallel conv liq vrew vstk order).results.length +
        (query_validator_stakes_parallel conv liq vrew vstk order).failed.length =
        addresses.length) ∧
    (∀ liq rew,
      ((query_delegator_stakes_parallel liq rew order).results.map Prod.fst ++
        (query_delegator_stakes_parallel liq rew order).failed.map Prod.fst).Perm addresses ∧
      ((query_delegator_stakes_parallel liq rew order).results.map Prod.fst ++
        (query_delegator_stakes_parallel liq rew order).failed.map Prod.fst).Nodup ∧
      (query_delegator_stakes_parallel liq rew order).results.length +
        (query_delegator_stakes_parallel liq rew order).failed.length = addresses.length) := by
  refine ⟨fun liq => ?_, fun liq stk => ?_, fun liq stk => ?_,
    fun conv liq vrew vstk => ?_, fun liq rew => ?_⟩
  · exact runFetch_partition (liquidOutcome liq) addresses order hperm hnodup
  · exact runFetch_partition (appOutcome liq stk) addresses order hperm hnodup
  · exact runFetch_partition (nodeOutcome liq stk) addresses order hperm hnodup
  · exact runFetch_partition (validatorOutcome conv liq vrew vstk) addresses order hperm hnodup
  · exact runFetch_partition (delegatorOutcome liq rew) addresses order hperm hnodup

/-- Witness for fetchers_partition_input: two addresses completing in
reversed order under an everything-times-out adapter still produce exactly
one outcome each, partitioning the input. -/
theorem fetchers_partition_input_witness :
    ((query_liquid_balances_parallel (fun _ => .timeout) ["pokt1b", "pokt1a"]).results.map
        Prod.fst ++
      (query_liquid_balances_parallel (fun _ => .timeout) ["pokt1b", "pokt1a"]).failed.map
        Prod.fst).Perm ["pokt1a", "pokt1b"] ∧
    (query_liquid_balances_parallel (fun _ => .timeout) ["pokt1b", "pokt1a"]).results.length +
      (query_liquid_balances_parallel (fun _ => .timeout) ["pokt1b", "pokt1a"]).failed.length
      = 2 := by
  have h := (fetchers_partition_input ["pokt1a", "pokt1b"] ["pokt1b", "pokt1a"]
    (by decide) (by decide)).1 (fun _ => .timeout)
  exact ⟨h.1, h.2.2⟩

theorem runFetch_foldl_results_mem {R : Type} (adapt : String → Except String R) :
    ∀ (order : List String) (st : FetchState R) (x : String × R),
      x ∈ (order.foldl (fun s a => recordOutcome s a (adapt a)) st).results →
      x ∈ st.results ∨ adapt x.1 = .ok x.2 := by
  intro order
  induction order with
  | nil => intro st x hx; exact Or.inl hx
  | cons a rest ih =>
      intro st x hx
      rcases ih (recordOutcome st a (adapt a)) x hx with hmem | hok
      · cases ho : adapt a with
        | ok r =>
            rw [ho] at hmem
            simp only [recordOutcome, List.mem_append, List.mem_singleton] at hmem
            rcases hmem with hmem | rfl
            · exact Or.inl hmem
            · exact Or.inr ho
        | error e =>
            rw [ho] at hmem
            simp only [recordOutcome] at hmem
            exact Or.inl hmem
      · exact Or.inr hok

theorem runFetch_results_mem {R : Type} (adapt : String → Except String R)
    (order : List String) (x : String × R)
    (hx : x ∈ (runFetch adapt order).results) : adapt x.1 = .ok x.2 := by
  rcases runFetch_foldl_results_mem adapt order ⟨[], [], 0⟩ x hx with hmem | hok
  · simp at hmem
  · exact hok

theorem sum_map_split_two {α : Type} (f g h : α → ℚ) (L : List α)
    (hfg : ∀ x ∈ L, h x = f x + g x) :
    (L.map h).sum = (L.map f).sum + (L.map g).sum := by
  induction L with
  | nil => simp
  | cons a t ih =>
      simp only [List.map_cons, List.sum_cons, hfg a (by simp),
        ih (fun x hx => hfg x (by simp [hx]))]
      ring

theorem sum_map_split_three {α : Type} (f g k h : α → ℚ) (L : List α)
    (hfg : ∀ x ∈ L, h x = f x + g x + k x) :
    (L.map h).sum = (L.map f).sum + (L.map g).sum + (L.map k).sum := by
  induction L with
  | nil => simp
  | cons a t ih =>
      simp only [List.map_cons, List.sum_cons, hfg a (by simp),
        ih (fun x hx => hfg x (by simp [hx]))]
      ring

theorem appOutcome_total_split (liq : String → QueryOutcome BankBalancesResponse)
    (stk : String → QueryOutcome StakeResponse) (a : String) (r : StakeRecord)
    (h : appOutcome liq stk a = .ok r) : r.total = r.liquid + r.staked := by
  simp only [appOutcome] at h
  split at h
  · injection h with h1
    subst h1
    rfl
  · exact Except.noConfusion h

theorem nodeOutcome_total_split (liq : String → QueryOutcome BankBalancesResponse)
    (stk : String → QueryOutcome StakeResponse) (a : String) (r : StakeRecord)
    (h : nodeOutcome liq stk a = .ok r) : r.total = r.liquid + r.staked := by
  simp only [nodeOutcome] at h
  split at h
  · injection h with h1
    subst h1
    rfl
  · exact Except.noConfusion h

theorem delegatorOutcome_total_split (liq : String → QueryOutcome BankBalancesResponse)
    (rew : String → QueryOutcome RewardsResponse) (a : String) (r : DelegatorRecord)
    (h : delegatorOutcome liq rew a = .ok r) :
    r.total = r.liquid + r.delegator_rewards := by
  simp only [delegatorOutcome] at h
  split at h
  · injection h with h1
    subst h1
    rfl
  · exact Except.noConfusion h

theorem validatorOutcome_total_split (conv : String → ConvOutcome)
    (liq : String → QueryOutcome BankBalancesResponse)
    (vrew : String → QueryOutcome ValRewardsResponse)
    (vstk : String → QueryOutcome ValidatorResponse) (a : String) (r : ValidatorRecord)
    (h : validatorOutcome conv liq vrew vstk a = .ok r) :
    r.total = r.liquid + r.staked + r.validator_rewards := by
  simp only [validatorOutcome] at h
  split at h
  · injection h with h1
    subst h1
    rfl
  · exact Except.noConfusion h

/-- Claim C9 (amended): under exact arithmetic the bundle-level combined
total equals the sum of the bundle-level field totals, because each stored
per-address total is the sum of the fields of that record: total_combined
= total_liquid + total_staked for app and node stakes, total_combined =
total_liquid + total_staked + total_validator_rewards for validator
stakes, and total_combined = total_liquid + total_delegator_rewards for
delegator stakes.  In the program the three totals are binary64 float sums
in different groupings, so the identity holds only up to floating-point
rounding and can fail exactly (see the counterexample). -/
theorem bundle_totals_additive (order : List String)
    (liq : String → QueryOutcome BankBalancesResponse)
    (stk : String → QueryOutcome StakeResponse)
    (conv : String → ConvOutcome)
    (vrew : String → QueryOutcome ValRewardsResponse)
    (vstk : String → QueryOutcome ValidatorResponse)
    (rew : String → QueryOutcome RewardsResponse) :
    ((query_app_stakes_parallel liq stk order).total_combined =
      (query_app_stakes_parallel liq stk order).total_liquid +
        (query_app_stakes_parallel liq stk order).total_staked) ∧
    ((query_node_stakes_parallel liq stk order).total_combined =
      (query_node_stakes_parallel liq stk order).total_liquid +
        (query_node_stakes_parallel liq stk order).total_staked) ∧
    ((query_validator_stakes_parallel conv liq vrew vstk order).total_combined =
      (query_validator_stakes_parallel conv liq vrew vstk order).total_liquid +
        (query_validator_stakes_parallel conv liq vrew vstk order).total_staked +
        (query_validator_stakes_parallel conv liq vrew vstk order).total_validator_rewards) ∧
    ((query_delegator_stakes_parallel liq rew order).total_combined =
      (query_delegator_stakes_parallel liq rew order).total_liquid +
        (query_delegator_stakes_parallel liq rew order).total_delegator_rewards) := by
  refine ⟨?_, ?_, ?_, ?_⟩
  · exact sum_map_split_two (fun p => p.2.liquid) (fun p => p.2.staked)
      (fun p => p.2.total) (runFetch (appOutcome liq stk) order).results
      (fun x hx => appOutcome_total_split liq stk x.1 x.2
        (runFetch_results_mem (appOutcome liq stk) order x hx))
  · exact sum_map_split_two (fun p => p.2.liquid) (fun p => p.2.staked)
      (fun p => p.2.total) (runFetch (nodeOutcome liq stk) order).results
      (fun x hx => nodeOutcome_total_split liq stk x.1 x.2
        (runFetch_results_mem (nodeOutcome liq stk) order x hx))
  · exact sum_map_split_three (fun p => p.2.liquid) (fun p => p.2.staked)
      (fun p => p.2.validator_rewards) (fun p => p.2.total)
      (runFetch (validatorOutcome conv liq vrew vstk) order).results
      (fun x hx => validatorOutcome_total_split conv liq vrew vstk x.1 x.2
        (runFetch_results_mem (validatorOutcome conv liq vrew vstk) order x hx))
  · exact sum_map_split_two (fun p => p.2.liquid) (fun p => p.2.delegator_rewards)
      (fun p => p.2.total) (runFetch (delegatorOutcome liq rew) order).results
      (fun x hx => delegatorOutcome_total_split liq rew x.1 x.2
        (runFetch_results_mem (delegatorOutcome liq rew) order x hx))

theorem get_liquid_balance64_addr1 :
    get_liquid_balance64 (hugeLiquidAdapter ("addr1")) = (2 ^ 53, true, "") := by
  rw [show hugeLiquidAdapter ("addr1") =
    .ok ⟨[("upokt", 9007199254740992000000)]⟩ from rfl]
  show (upoktToPokt64 (firstUpokt [("upokt", 9007199254740992000000)]), true, "") = _
  rw [show firstUpokt [("upokt", 9007199254740992000000)] =
    9007199254740992000000 from rfl, upoktToPokt64_two53]

theorem get_liquid_balance64_addr2 :
    get_liquid_balance64 (hugeLiquidAdapter ("addr2")) = (0, true, "") := by
  rw [show hugeLiquidAdapter ("addr2") = .ok ⟨[("upokt", 0)]⟩ from rfl]
  show (upoktToPokt64 (firstUpokt [("upokt", 0)]), true, "") = _
  rw [show firstUpokt [("upokt", 0)] = 0 from rfl, upoktToPokt64_zero]

theorem appOutcome64_addr1 :
    appOutcome64 hugeLiquidAdapter onePoktStakeAdapter ("addr1") =
      .ok ⟨2 ^ 53, 1, 2 ^ 53⟩ := by
  have hstk : onePoktStakeAdapter ("addr1") = .ok (.stake 1000000) := rfl
  simp only [appOutcome64, get_app_stake_balance64, hstk, get_liquid_balance64_addr1,
    upoktToPokt64_one_e6]
  norm_num
  rw [show (9007199254740992 : ℚ) = 2 ^ 53 by norm_num]
  exact fadd_two53_one

theorem appOutcome64_addr2 :
    appOutcome64 hugeLiquidAdapter onePoktStakeAdapter ("addr2") =
      .ok ⟨0, 1, 1⟩ := by
  have hstk : onePoktStakeAdapter ("addr2") = .ok (.stake 1000000) := rfl
  simp only [appOutcome64, get_app_stake_balance64, hstk, get_liquid_balance64_addr2,
    upoktToPokt64_one_e6]
  norm_num [fadd_zero_one]

theorem app_bundle64_concrete :
    query_app_stakes_parallel64 hugeLiquidAdapter onePoktStakeAdapter
      ["addr1", "addr2"] =
      { results := [("addr1", ⟨2 ^ 53, 1, 2 ^ 53⟩), ("addr2", ⟨0, 1, 1⟩)]
        failed := []
        total_liquid := 2 ^ 53
        total_staked := 2
        total_combined := 2 ^ 53 } := by
  have hrun : runFetch (appOutcome64 hugeLiquidAdapter onePoktStakeAdapter)
      ["addr1", "addr2"] =
      ⟨[("addr1", ⟨2 ^ 53, 1, 2 ^ 53⟩), ("addr2", ⟨0, 1, 1⟩)], [], 2⟩ := by
    simp [runFetch, recordOutcome, appOutcome64_addr1, appOutcome64_addr2]
  simp only [query_app_stakes_parallel64, hrun]
  simp only [List.map_cons, List.map_nil]
  rw [show fsum [(2 : ℚ) ^ 53, 0] = 2 ^ 53 by
      simp [fsum, fadd_zero_two53, fadd_two53_zero],
    show fsum [(1 : ℚ), 1] = 2 by
      simp [fsum, fadd_zero_one, fadd_one_one],
    show fsum [(2 : ℚ) ^ 53, 1] = 2 ^ 53 by
      simp [fsum, fadd_zero_two53, fadd_two53_one]]

/-- Counterexample for claim C9: with binary64 arithmetic the bundle
identity fails.  addr1 holds 2^53 POKT liquid and 1 POKT staked (both
derived from integer upokt amounts; its stored record total 2^53 + 1
rounds to 2^53), addr2 holds 0 liquid and 1 POKT staked; then the float
summation gives total_combined = 2^53 while total_liquid + total_staked =
2^53 + 2, so total_combined does not equal the sum of the field totals. -/
theorem bundle_totals_float_counterexample :
    (query_app_stakes_parallel64 hugeLiquidAdapter onePoktStakeAdapter
      ["addr1", "addr2"]).total_combined ≠
      (query_app_stakes_parallel64 hugeLiquidAdapter onePoktStakeAdapter
        ["addr1", "addr2"]).total_liquid +
      (query_app_stakes_parallel64 hugeLiquidAdapter onePoktStakeAdapter
        ["addr1", "addr2"]).total_staked ∧
    (query_app_stakes_parallel64 hugeLiquidAdapter onePoktStakeAdapter
      ["addr1", "addr2"]).total_combined = 2 ^ 53 ∧
    (query_app_stakes_parallel64 hugeLiquidAdapter onePoktStakeAdapter
      ["addr1", "addr2"]).total_liquid +
      (query_app_stakes_parallel64 hugeLiquidAdapter onePoktStakeAdapter
        ["addr1", "addr2"]).total_staked = 2 ^ 53 + 2 := by
  rw [app_bundle64_concrete]
  refine ⟨by norm_num, rfl, by norm_num⟩

/-- A stub adapter outcome assignment under which every query call times
out, so every per-address query fails. -/
def allTimeoutAdapters : TreasuryAdapters :=
  { liq := fun _ => .timeout
    appStk := fun _ => .timeout
    nodeStk := fun _ => .timeout
    conv := fun _ => .timeout
    valRew := fun _ => .timeout
    valStk := fun _ => .timeout
    delRew := fun _ => .timeout }

/-- Claim C8: the treasury command exits with code 0 whenever a report is
rendered, whatever the per-address query outcomes (failures are downgraded
to Failure entries, never to a process failure), and exits with code 1
without issuing any queries when the dataset file is missing, is not
parseable, or fails validation. -/
theorem treasury_exit_codes (A : TreasuryAdapters) (d : TreasuryData) (key : String) :
    treasury .missing A = ⟨1, false, none⟩ ∧
    treasury .invalidJson A = ⟨1, false, none⟩ ∧
    treasury .notAnObject A = ⟨1, false, none⟩ ∧
    treasury (.keyNotArray key) A = ⟨1, false, none⟩ ∧
    (∀ e, validate_and_deduplicate_addresses d = .error e →
      treasury (.wellFormed d) A = ⟨1, false, none⟩) ∧
    (validate_and_deduplicate_addresses d = .ok d →
      treasury (.wellFormed d) A =
        ⟨0, !(scheduledCategories d).isEmpty, some (treasury_results A d)⟩) := by
  refine ⟨rfl, rfl, rfl, rfl, ?_, ?_⟩
  · intro e he
    simp [treasury, load_treasury_addresses, he]
  · intro hok
    simp [treasury, load_treasury_addresses, hok]

/-- Witness for treasury_exit_codes: a dataset whose liquid array repeats
an address is rejected with exit code 1 before any query, and a valid
one-address dataset reaches the report with exit code 0 even though every
query times out. -/
theorem treasury_exit_codes_witness :
    treasury (.wellFormed ⟨["pokt1a", "pokt1a"], [], [], [], []⟩) allTimeoutAdapters =
      ⟨1, false, none⟩ ∧
    treasury (.wellFormed ⟨["pokt1a"], [], [], [], []⟩) allTimeoutAdapters =
      ⟨0, true, some (treasury_results allTimeoutAdapters ⟨["pokt1a"], [], [], [], []⟩)⟩ ∧
    treasury .missing allTimeoutAdapters = ⟨1, false, none⟩ := by
  have hbad := (treasury_exit_codes allTimeoutAdapters
    ⟨["pokt1a", "pokt1a"], [], [], [], []⟩ ("x")).2.2.2.2.1
    (.withinArrayDuplicates ("liquid") [("pokt1a", 2)]) rfl
  have hok := (treasury_exit_codes allTimeoutAdapters
    ⟨["pokt1a"], [], [], [], []⟩ ("x")).2.2.2.2.2 rfl
  have hmiss := (treasury_exit_codes allTimeoutAdapters
    ⟨["pokt1a"], [], [], [], []⟩ ("x")).1
  refine ⟨hbad, ?_, hmiss⟩
  rw [hok]
  decide

/-- Claim C7 evaluation at the failing input: with all five categories
non-empty the treasury command schedules five category fetchers (exactly
the non-empty ones, and an empty category gets no results entry), yet the
outer category pool is created with only 4 workers, fewer than the number
of scheduled categories. -/
theorem treasury_outer_pool_undersized :
    scheduledCategories ⟨["pokt1a"], ["pokt1b"], ["pokt1c"], ["poktvaloper1d"], ["pokt1e"]⟩ =
      ["liquid", "app_stakes", "node_stakes", "validator_stakes", "delegator_stakes"] ∧
    (treasury_results allTimeoutAdapters
      ⟨["pokt1a"], ["pokt1b"], ["pokt1c"], ["poktvaloper1d"], ["pokt1e"]⟩).map Prod.fst =
      ["liquid", "app_stakes", "node_stakes", "validator_stakes", "delegator_stakes"] ∧
    (treasury_results allTimeoutAdapters ⟨["pokt1a"], [], [], [], []⟩).map Prod.fst =
      ["liquid"] ∧
    category_executor_max_workers = 4 ∧
    category_executor_max_workers <
      (scheduledCategories
        ⟨["pokt1a"], ["pokt1b"], ["pokt1c"], ["poktvaloper1d"], ["pokt1e"]⟩).length := by
  refine ⟨by decide, ?_, ?_, rfl, by decide⟩ <;> decide

/-! ## Characterization of the cross-array conflicts map -/

/-- Lookup in the conflicts map: the array-name list recorded for an
address (empty when the address has no entry). -/
def conflictsFor (m : List (String × List String)) (a : String) : List String :=
  match m.find? (fun p => p.1 == a) with
  | some p => p.2
  | none => []

theorem conflictsFor_nil (a : String) : conflictsFor [] a = [] := rfl

theorem conflictsFor_cons_pos (p : String × List String) (m : List (String × List String))
    (a : String) (h : p.1 = a) : conflictsFor (p :: m) a = p.2 := by
  unfold conflictsFor
  rw [List.find?_cons_of_pos _ (by simp [h])]

theorem conflictsFor_cons_neg (p : String × List String) (m : List (String × List String))
    (a : String) (h : p.1 ≠ a) : conflictsFor (p :: m) a = conflictsFor m a := by
  unfold conflictsFor
  rw [List.find?_cons_of_neg _ (by simp [h])]

theorem conflictsFor_append_new (m : List (String × List String)) (addr : String)
    (v : List String) (hnew : addr ∉ m.map Prod.fst) :
    conflictsFor (m ++ [(addr, v)]) addr = v := by
  induction m with
  | nil => simp [conflictsFor_cons_pos]
  | cons p rest ih =>
      have hne : p.1 ≠ addr := by
        intro hcontra
        exact hnew (by simp [hcontra.symm])
      have hrest : addr ∉ rest.map Prod.fst := by
        intro hcontra
        exact hnew (by simp [hcontra])
      rw [List.cons_append, conflictsFor_cons_neg p _ addr hne]
      exact ih hrest

theorem conflictsFor_append_other (m : List (String × List String)) (addr a : String)
    (v : List String) (hne : a ≠ addr) :
    conflictsFor (m ++ [(addr, v)]) a = conflictsFor m a := by
  induction m with
  | nil =>
      rw [List.nil_append, conflictsFor_cons_neg _ _ a (by simpa using Ne.symm hne)]
  | cons p rest ih =>
      by_cases hpa : p.1 = a
      · rw [List.cons_append, conflictsFor_cons_pos p _ a hpa, conflictsFor_cons_pos p _ a hpa]
      · rw [List.cons_append, conflictsFor_cons_neg p _ a hpa, conflictsFor_cons_neg p _ a hpa]
        exact ih

theorem conflictsFor_bump (m : List (String × List String)) (addr name : String)
    (hmem : addr ∈ m.map Prod.fst) :
    conflictsFor (m.map (fun p => if p.1 = addr then (p.1, p.2 ++ [name]) else p)) addr =
      conflictsFor m addr ++ [name] := by
  induction m with
  | nil => simp at hmem
  | cons p rest ih =>
      by_cases hpa : p.1 = addr
      · rw [List.map_cons, if_pos hpa, conflictsFor_cons_pos (p.1, p.2 ++ [name]) _ addr hpa,
          conflictsFor_cons_pos p _ addr hpa]
      · have hrest : addr ∈ rest.map Prod.fst := by
          rcases List.mem_map.mp hmem with ⟨q, hq, hqa⟩
          rcases List.mem_cons.mp hq with rfl | hq2
          · exact absurd hqa hpa
          · exact List.mem_map.mpr ⟨q, hq2, hqa⟩
        rw [List.map_cons, if_neg hpa, conflictsFor_cons_neg p _ addr hpa,
          conflictsFor_cons_neg p _ addr hpa]
        exact ih hrest

theorem conflictsFor_bump_other (m : List (String × List String)) (addr name a : String)
    (hne : a ≠ addr) :
    conflictsFor (m.map (fun p => if p.1 = addr then (p.1, p.2 ++ [name]) else p)) a =
      conflictsFor m a := by
  induction m with
  | nil => rfl
  | cons p rest ih =>
      by_cases hpa : p.1 = addr
      · have hpna : p.1 ≠ a := fun hc => hne (hc ▸ hpa)
        rw [List.map_cons, if_pos hpa,
          conflictsFor_cons_neg (p.1, p.2 ++ [name]) _ a hpna,
          conflictsFor_cons_neg p _ a hpna]
        exact ih
      · by_cases hpb : p.1 = a
        · rw [List.map_cons, if_neg hpa, conflictsFor_cons_pos p _ a hpb,
            conflictsFor_cons_pos p _ a hpb]
        · rw [List.map_cons, if_neg hpa, conflictsFor_cons_neg p _ a hpb,
            conflictsFor_cons_neg p _ a hpb]
          exact ih

/-- The seen-set / conflicts-map coupling the cross-array loop maintains:
an address is in the seen set precisely when it has a conflicts entry. -/
def CrossInv (acc : List String × List (String × List String)) : Prop :=
  ∀ x, x ∈ acc.1 ↔ x ∈ acc.2.map Prod.fst

theorem crossStep_keys_fst (m : List (String × List String)) (addr name : String) :
    (m.map (fun p => if p.1 = addr then (p.1, p.2 ++ [name]) else p)).map Prod.fst =
      m.map Prod.fst := by
  rw [List.map_map]
  apply List.map_congr_left
  intro p _
  by_cases hpa : p.1 = addr <;> simp [hpa]

theorem crossStep_inv (acc : List String × List (String × List String))
    (name addr : String) (hinv : CrossInv acc) : CrossInv (crossStep acc name addr) := by
  intro x
  unfold crossStep
  by_cases hmem : addr ∈ acc.1
  · simp only [if_pos hmem, crossStep_keys_fst]
    exact hinv x
  · simp only [if_neg hmem, List.map_append, List.map_cons, List.map_nil,
      List.mem_cons, List.mem_append, List.mem_singleton, hinv x]
    tauto

theorem crossStep_conflictsFor (acc : List String × List (String × List String))
    (name addr a : String) (hinv : CrossInv acc) :
    conflictsFor (crossStep acc name addr).2 a =
      if a = addr then conflictsFor acc.2 a ++ [name] else conflictsFor acc.2 a := by
  unfold crossStep
  by_cases hmem : addr ∈ acc.1
  · have hkey : addr ∈ acc.2.map Prod.fst := (hinv addr).mp hmem
    simp only [if_pos hmem]
    by_cases ha : a = addr
    · subst ha
      simp [conflictsFor_bump acc.2 a name hkey]
    · simp [conflictsFor_bump_other acc.2 addr name a ha, ha]
  · have hkey : addr ∉ acc.2.map Prod.fst := fun hc => hmem ((hinv addr).mpr hc)
    simp only [if_neg hmem]
    by_cases ha : a = addr
    · subst ha
      have hnone : conflictsFor acc.2 a = [] := by
        unfold conflictsFor
        cases hf : acc.2.find? (fun p => p.1 == a) with
        | none => rfl
        | some p =>
            exfalso
            have hp := List.find?_some hf
            have hpm := List.mem_of_find?_eq_some hf
            exact hkey (List.mem_map.mpr ⟨p, hpm, beq_iff_eq.mp hp⟩)
      simp [conflictsFor_append_new acc.2 a [name] hkey, hnone]
    · simp [conflictsFor_append_other acc.2 addr a [name] ha, ha]

theorem crossEntry_foldl_inv (name : String) (addrs : List String) :
    ∀ acc, CrossInv acc →
      CrossInv (addrs.foldl (fun ac addr => crossStep ac name addr) acc) := by
  induction addrs with
  | nil => intro acc h; exact h
  | cons x rest ih => intro acc h; exact ih _ (crossStep_inv acc name x h)

theorem crossEntry_foldl_conflictsFor (name a : String) (addrs : List String) :
    ∀ acc, CrossInv acc →
      conflictsFor (addrs.foldl (fun ac addr => crossStep ac name addr) acc).2 a =
        conflictsFor acc.2 a ++ List.replicate (addrs.count a) name := by
  induction addrs with
  | nil => intro acc _; simp
  | cons x rest ih =>
      intro acc h
      have hstep := crossStep_conflictsFor acc name x a h
      have hrest := ih (crossStep acc name x) (crossStep_inv acc name x h)
      rw [List.foldl_cons, hrest, hstep]
      by_cases hax : a = x
      · subst hax
        simp [List.count_cons, List.replicate_succ]
      · simp [List.count_cons, hax, Ne.symm hax]

theorem crossConflicts_foldl (a : String) (entries : List (String × List String)) :
    ∀ acc, CrossInv acc →
      conflictsFor (entries.foldl crossEntry acc).2 a =
        conflictsFor acc.2 a ++
          (entries.map (fun p => List.replicate (p.2.count a) p.1)).flatten ∧
      CrossInv (entries.foldl crossEntry acc) := by
  induction entries with
  | nil => intro acc h; exact ⟨by simp, h⟩
  | cons p rest ih =>
      intro acc h
      have hinner := crossEntry_foldl_conflictsFor p.1 a p.2 acc h
      have hinv2 : CrossInv (crossEntry acc p) := crossEntry_foldl_inv p.1 p.2 acc h
      have hrest := ih (crossEntry acc p) hinv2
      refine ⟨?_, hrest.2⟩
      have hceq : crossEntry acc p =
          p.2.foldl (fun ac addr => crossStep ac p.1 addr) acc := rfl
      rw [List.foldl_cons, hrest.1, hceq, hinner]
      simp [List.append_assoc]

theorem crossConflicts_char (entries : List (String × List String)) (a : String) :
    conflictsFor (crossConflicts entries) a =
      (entries.map (fun p => List.replicate (p.2.count a) p.1)).flatten := by
  have hinv : CrossInv (([], []) : List String × List (String × List String)) := by
    intro x
    simp
  have h := (crossConflicts_foldl a entries ([], []) hinv).1
  simpa [crossConflicts, conflictsFor_nil] using h

theorem join_replicate_eq_filter_names (a : String)
    (entries : List (String × List String)) (h : ∀ p ∈ entries, p.2.Nodup) :
    (entries.map (fun p => List.replicate (p.2.count a) p.1)).flatten =
      (entries.filter (fun p => decide (a ∈ p.2))).map Prod.fst := by
  induction entries with
  | nil => rfl
  | cons p rest ih =>
      have hp : p.2.Nodup := h p (by simp)
      have htail := ih (fun q hq => h q (by simp [hq]))
      by_cases hm : a ∈ p.2
      · have hc : p.2.count a = 1 := List.count_eq_one_of_mem hp hm
        simp [hc, hm, htail]
      · have hc : p.2.count a = 0 := List.count_eq_zero.mpr hm
        simp [hc, hm, htail]

theorem conflictsFor_self_mem (m : List (String × List String)) (a : String)
    (h : conflictsFor m a ≠ []) : (a, conflictsFor m a) ∈ m := by
  cases hf : m.find? (fun q => q.1 == a) with
  | none =>
      exfalso
      apply h
      unfold conflictsFor
      rw [hf]
  | some p =>
      have hval : conflictsFor m a = p.2 := by
        unfold conflictsFor
        rw [hf]
      have hpm : p ∈ m := List.mem_of_find?_eq_some hf
      have hsat := @List.find?_some (String × List String) (fun q => q.1 == a) p m hf
      have hpa : p.1 = a := beq_iff_eq.mp hsat
      rw [hval]
      have hpair : (a, p.2) = p := by
        rw [← hpa]
      rw [hpair]
      exact hpm

theorem find?_withindup_none_of_nodup (d : TreasuryData)
    (h : ∀ p ∈ arrayEntries d, p.2.Nodup) :
    (arrayEntries d).find? (fun p => !(p.2.dedup.length == p.2.length)) = none := by
  rw [List.find?_eq_none]
  intro p hp
  have hnd : p.2.Nodup := h p hp
  simp [List.Nodup.dedup hnd]

/-- Counterexample for claim C2: on a dataset whose liquid array repeats
pokt1a and whose app_stakes array repeats pokt1b, validation rejects after
examining only the liquid array: the reported violation set names only
pokt1a, although pokt1b is also duplicated (in app_stakes) — so not every
duplicated address in every category array is reported. -/
theorem validator_stops_at_first_offending_array :
    validate_and_deduplicate_addresses
      ⟨["pokt1a", "pokt1a"], ["pokt1b", "pokt1b"], [], [], []⟩ =
      .error (.withinArrayDuplicates ("liquid") [("pokt1a", 2)]) ∧
    (⟨["pokt1a", "pokt1a"], ["pokt1b", "pokt1b"], [], [], []⟩ :
      TreasuryData).app_stakes.count ("pokt1b") = 2 ∧
    "pokt1b" ∉ ([("pokt1a", 2)].map Prod.fst) := by
  refine ⟨rfl, by decide, by decide⟩

/-- Claim C2 (amended): validation does not run to completion over all
violations: it stops at the first array (in the fixed order liquid,
app_stakes, node_stakes, validator_stakes, delegator_stakes) that contains
internal duplicates, reporting every duplicate address of that one array
with its repeat count and ignoring later arrays and the cross-category
check; only when every array is duplicate-free does the cross-category
check run, and it then reports every address occurring in more than one
category together with all the categories it occurs in. -/
theorem validator_reporting (d : TreasuryData) :
    (∀ name addrs,
      (arrayEntries d).find? (fun p => !(p.2.dedup.length == p.2.length)) =
        some (name, addrs) →
      validate_and_deduplicate_addresses d =
        .error (.withinArrayDuplicates name (dupReport addrs)) ∧
      ∀ a, 2 ≤ addrs.count a → (a, addrs.count a) ∈ dupReport addrs) ∧
    ((∀ p ∈ arrayEntries d, p.2.Nodup) →
      ∀ a, 2 ≤ ((arrayEntries d).filter (fun p => decide (a ∈ p.2))).length →
      validate_and_deduplicate_addresses d =
        .error (.crossArrayDuplicates
          ((crossConflicts (arrayEntries d)).filter (fun p => decide (1 < p.2.length)))) ∧
      (a, ((arrayEntries d).filter (fun p => decide (a ∈ p.2))).map Prod.fst) ∈
        (crossConflicts (arrayEntries d)).filter (fun p => decide (1 < p.2.length))) := by
  constructor
  · intro name addrs hfind
    constructor
    · unfold validate_and_deduplicate_addresses
      rw [hfind]
    · intro a hcount
      have hmem : a ∈ addrs := List.count_pos_iff.mp (by omega)
      have hfil : a ∈ addrs.filter (fun x => decide (1 < addrs.count x)) :=
        List.mem_filter.mpr ⟨hmem, by simpa using hcount⟩
      have hded : a ∈ (addrs.filter (fun x => decide (1 < addrs.count x))).dedup :=
        List.mem_dedup.mpr hfil
      exact List.mem_map.mpr ⟨a, hded, rfl⟩
  · intro hnodup a hlen
    have hchar : conflictsFor (crossConflicts (arrayEntries d)) a =
        ((arrayEntries d).filter (fun p => decide (a ∈ p.2))).map Prod.fst :=
      (crossConflicts_char (arrayEntries d) a).trans
        (join_replicate_eq_filter_names a (arrayEntries d) hnodup)
    have hLlen : 2 ≤ (conflictsFor (crossConflicts (arrayEntries d)) a).length := by
      rw [hchar, List.length_map]
      exact hlen
    have hne : conflictsFor (crossConflicts (arrayEntries d)) a ≠ [] := by
      intro hc
      rw [hc] at hLlen
      simp at hLlen
    have hmem0 : (a, conflictsFor (crossConflicts (arrayEntries d)) a) ∈
        crossConflicts (arrayEntries d) :=
      conflictsFor_self_mem (crossConflicts (arrayEntries d)) a hne
    have hmemf : (a, ((arrayEntries d).filter (fun p => decide (a ∈ p.2))).map Prod.fst) ∈
        (crossConflicts (arrayEntries d)).filter (fun p => decide (1 < p.2.length)) := by
      refine List.mem_filter.mpr ⟨?_, ?_⟩
      · rw [← hchar]
        exact hmem0
      · simp only [decide_eq_true_eq, List.length_map]
        omega
    refine ⟨?_, hmemf⟩
    have hnone := find?_withindup_none_of_nodup d hnodup
    unfold validate_and_deduplicate_addresses
    rw [hnone]
    have hcne : ((crossConflicts (arrayEntries d)).filter
        (fun p => decide (1 < p.2.length))) ≠ [] := List.ne_nil_of_mem hmemf
    simp [List.isEmpty_iff, hcne]

/-- Witness for validator_reporting: a dataset with pokt1a repeated three
times in the liquid array is rejected with pokt1a reported at count 3;
a duplicate-free dataset with pokt1c in both liquid and node_stakes is
rejected with pokt1c reported under both of those category names. -/
theorem validator_reporting_witness :
    validate_and_deduplicate_addresses
      ⟨["pokt1a", "pokt1a", "pokt1b", "pokt1a"], [], [], [], []⟩ =
      .error (.withinArrayDuplicates ("liquid")
        (dupReport ["pokt1a", "pokt1a", "pokt1b", "pokt1a"])) ∧
    ("pokt1a", 3) ∈ dupReport ["pokt1a", "pokt1a", "pokt1b", "pokt1a"] ∧
    validate_and_deduplicate_addresses ⟨["pokt1c"], [], ["pokt1c"], [], []⟩ =
      .error (.crossArrayDuplicates
        ((crossConflicts (arrayEntries ⟨["pokt1c"], [], ["pokt1c"], [], []⟩)).filter
          (fun p => decide (1 < p.2.length)))) ∧
    ("pokt1c", (((arrayEntries ⟨["pokt1c"], [], ["pokt1c"], [], []⟩).filter
        (fun p => decide ("pokt1c" ∈ p.2))).map Prod.fst)) ∈
      ((crossConflicts (arrayEntries ⟨["pokt1c"], [], ["pokt1c"], [], []⟩)).filter
        (fun p => decide (1 < p.2.length))) := by
  have h1 := (validator_reporting
    ⟨["pokt1a", "pokt1a", "pokt1b", "pokt1a"], [], [], [], []⟩).1 ("liquid")
    ["pokt1a", "pokt1a", "pokt1b", "pokt1a"] rfl
  have h2 := (validator_reporting ⟨["pokt1c"], [], ["pokt1c"], [], []⟩).2
    (by decide) ("pokt1c") (by decide)
  have h1count := h1.2 ("pokt1a") (by decide)
  have hc : (["pokt1a", "pokt1a", "pokt1b", "pokt1a"] : List String).count ("pokt1a") = 3 := by
    decide
  rw [hc] at h1count
  exact ⟨h1.1, h1count, h2.1, h2.2⟩

end Pocketknife
